import Mathlib

/-!
Verification of the JSON template substitution engine of
`opslib/icsutils/jsonsubs.py` (classes `DefaultFunc` and `JsonSubs`) together
with the `dict_merge` helper of `opslib/icsutils/misc.py`.

The Python code operates on JSON-compatible values (the result of decoding
JSON text with the `json` module).  We embed those values as the inductive
type `JSON` below.  Python's `None` and JSON's `null` are the same object in
that representation, so both are modelled by `JSON.null`; numbers are
modelled as integers (none of the verified behaviour involves floats);
dictionaries are association lists in insertion order with (as for Python
dicts) unique keys in every dictionary produced by decoding JSON.

Python-level operations used by the source (`in`, subscription, `update`,
`extend`, truthiness, `int()`) are modelled by explicit functions, with
Python exceptions represented by the `Err` error type.
-/

inductive JSON where
  | null : JSON
  | bool (b : Bool) : JSON
  | num (n : Int) : JSON
  | str (s : String) : JSON
  | list (xs : List JSON) : JSON
  | dict (kvs : List (String × JSON)) : JSON

/-- Python exception kinds that the verified code can raise.  The four
`IcsException` raise sites of `jsonsubs.py` are distinguished by the message
they carry: `invalidParams` ("Invalid parameters found"), `mappingError`
("Error found in <Mapping>"), `invalidFunction` ("Invalid function found"),
`unknownFunction` ("Unknown function found"), `unexpectedType`
("Unexpetcted type").  The remaining constructors model Python builtin
exceptions (TypeError, IndexError, KeyError, ValueError, IOError,
ZeroDivisionError and a jmespath compile error).  `outOfFuel` is a model
artifact marking exhaustion of the recursion fuel. -/
inductive Err where
  | invalidParams : Err
  | mappingError : Err
  | invalidFunction : Err
  | unknownFunction : Err
  | unexpectedType : Err
  | typeError : Err
  | indexError : Err
  | keyError : Err
  | valueError : Err
  | ioError : Err
  | jmesError : Err
  | zeroDivisionError : Err
  | outOfFuel : Err
deriving DecidableEq

/-- Python truthiness (`bool(value)`) of a JSON value: `None`, `False`, `0`,
empty strings, empty lists and empty dicts are falsy. -/
def JSON.falsy : JSON → Bool
  | JSON.null => true
  | JSON.bool b => !b
  | JSON.num n => n == 0
  | JSON.str s => s.isEmpty
  | JSON.list xs => xs.isEmpty
  | JSON.dict kvs => kvs.isEmpty

mutual

/-- Python structural equality (`==`) on JSON values. -/
def JSON.beq : JSON → JSON → Bool
  | JSON.null, JSON.null => true
  | JSON.bool a, JSON.bool b => a == b
  | JSON.num a, JSON.num b => a == b
  | JSON.str a, JSON.str b => a == b
  | JSON.list a, JSON.list b => beqL a b
  | JSON.dict a, JSON.dict b => beqD a b
  | _, _ => false

def beqL : List JSON → List JSON → Bool
  | [], [] => true
  | x :: xs, y :: ys => JSON.beq x y && beqL xs ys
  | _, _ => false

def beqD : List (String × JSON) → List (String × JSON) → Bool
  | [], [] => true
  | (k, v) :: xs, (k2, v2) :: ys => k == k2 && JSON.beq v v2 && beqD xs ys
  | _, _ => false

end

/-- First value stored under key `k` in an association list (Python dicts
have unique keys, so this is the value `d[k]` when present). -/
def lookupD (k : String) : List (String × JSON) → Option JSON
  | [] => none
  | (k2, v) :: rest => if k2 = k then some v else lookupD k rest

/-- Assignment `d[k] = v` on a Python dict: overwrite in place if the key exists
(keeping its position), otherwise append the new entry at the end. -/
def dictSet (kvs : List (String × JSON)) (k : String) (v : JSON) :
    List (String × JSON) :=
  if kvs.any (fun p => p.1 == k) then
    kvs.map (fun p => if p.1 = k then (k, v) else p)
  else kvs ++ [(k, v)]

/-- Update `a.update(b)` on Python dicts: entries of `b` are written into `a` in
order, overriding existing keys. -/
def dictUpdate (a b : List (String × JSON)) : List (String × JSON) :=
  b.foldl (fun acc p => dictSet acc p.1 p.2) a

/-- Python list subscription `l[i]` with negative-index wraparound;
out-of-range indices raise `IndexError`. -/
def pyIndex (l : List JSON) (i : Int) : Except Err JSON :=
  let n : Int := l.length
  let j : Int := if i < 0 then i + n else i
  if 0 ≤ j ∧ j < n then Except.ok (l.getD j.toNat JSON.null)
  else Except.error Err.indexError

/-- Python membership `x in y`: key test for dicts, element test for lists,
substring test for strings; `in` on other values raises `TypeError`. -/
def pyIn (x : JSON) (y : JSON) : Except Err Bool :=
  match y with
  | JSON.dict kvs =>
      match x with
      | JSON.str k => Except.ok (kvs.any (fun p => p.1 == k))
      | _ => Except.ok false
  | JSON.list xs => Except.ok (xs.any (fun e => JSON.beq e x))
  | JSON.str s =>
      match x with
      | JSON.str sub => Except.ok (isSubstr sub.data s.data)
      | _ => Except.error Err.typeError
  | _ => Except.error Err.typeError
where
  isSubstr (needle : List Char) : List Char → Bool
  | [] => needle.isEmpty
  | c :: rest => needle.isPrefixOf (c :: rest) || isSubstr needle rest

/-- Python subscription `container[idx]` for the container shapes the source
can reach: dicts (KeyError on a missing key), lists (with bool-as-int
indices), strings (yielding one-character strings); everything else raises
`TypeError`. -/
def pySubscript (container : JSON) (idx : JSON) : Except Err JSON :=
  match container, idx with
  | JSON.dict kvs, JSON.str k =>
      match lookupD k kvs with
      | some v => Except.ok v
      | none => Except.error Err.keyError
  | JSON.dict _, _ => Except.error Err.keyError
  | JSON.list xs, JSON.num i => pyIndex xs i
  | JSON.list xs, JSON.bool b => pyIndex xs (if b then 1 else 0)
  | JSON.list _, _ => Except.error Err.typeError
  | JSON.str s, JSON.num i =>
      let cs := s.data
      let n : Int := cs.length
      let j : Int := if i < 0 then i + n else i
      if 0 ≤ j ∧ j < n then Except.ok (JSON.str (String.mk [cs.getD j.toNat ' ']))
      else Except.error Err.indexError
  | JSON.str _, _ => Except.error Err.typeError
  | _, _ => Except.error Err.typeError

/-- Python iteration over a value (as consumed by `list.extend`): lists give
their elements, strings their characters, dicts their keys; other values
raise `TypeError`. -/
def pyIter : JSON → Except Err (List JSON)
  | JSON.list xs => Except.ok xs
  | JSON.str s => Except.ok (s.data.map (fun c => JSON.str (String.mk [c])))
  | JSON.dict kvs => Except.ok (kvs.map (fun p => JSON.str p.1))
  | _ => Except.error Err.typeError

/-- Extension `ret.extend(arg)` of a Python list. -/
def pyExtend (ret : List JSON) (arg : JSON) : Except Err (List JSON) :=
  match pyIter arg with
  | Except.ok xs => Except.ok (ret ++ xs)
  | Except.error e => Except.error e

/-- Update `ret.update(arg)` on a Python dict; updating from a non-mapping raises
(the exotic iterable-of-pairs forms accepted by CPython are unreachable in
the verified code and folded into `TypeError`). -/
def pyDictUpdate (ret : List (String × JSON)) (arg : JSON) :
    Except Err (List (String × JSON)) :=
  match arg with
  | JSON.dict kvs => Except.ok (dictUpdate ret kvs)
  | _ => Except.error Err.typeError

/-- Python `int(s)` on a string: optional surrounding whitespace, optional
sign, one or more decimal digits; anything else raises `ValueError`
(modelled as `none`). -/
def py_int_of_string (s : String) : Option Int :=
  let cs := (s.data.dropWhile Char.isWhitespace).reverse.dropWhile
    Char.isWhitespace |>.reverse
  match cs with
  | '-' :: ds => (digitsVal ds).map (fun n => -(n : Int))
  | '+' :: ds => (digitsVal ds).map (fun n => (n : Int))
  | ds => (digitsVal ds).map (fun n => (n : Int))
where
  digitsVal (ds : List Char) : Option Nat :=
    if ds.isEmpty then none
    else if ds.all Char.isDigit then
      some (ds.foldl (fun acc c => acc * 10 + (c.toNat - '0'.toNat)) 0)
    else none


/-!
The pattern matcher.  `JsonSubs.pattern` compiles the regular expression
`\$((<.*?>)|(\(.*?\))|({.*?})|(\[.*?\]))` and `JsonSubs.search` returns the
first match (or `None`).  Since the four alternatives start with distinct
opening brackets, a match at a position is: a `$`, an opening bracket, the
shortest run of non-newline characters, and the matching closing bracket
(`.` does not match a newline and `.*?` is non-greedy).  `re.search` scans
positions left to right, so a `$` whose bracket never closes before a
newline is skipped and the scan resumes at the next character.
`search_tok` returns the decomposed match: the opening bracket and the
inner text (the full match is `'$'`, the opener, the inner text, and the
closer determined by the opener).
-/

def closerFor : Char → Option Char
  | '<' => some '>'
  | '(' => some ')'
  | '{' => some '}'
  | '[' => some ']'
  | _ => none

/-- Scan for the first occurrence of the closing bracket `c`, failing on a
newline (which `.` cannot match) or the end of the string; returns the
characters before the closer. -/
def scanTo (c : Char) : List Char → Option (List Char)
  | [] => none
  | x :: xs =>
      if x == c then some []
      else if x == '\n' then none
      else (scanTo c xs).map (fun p => x :: p)

/-- First token match in a character list, decomposed as
(opening bracket, inner text). -/
def search_tok : List Char → Option (Char × List Char)
  | [] => none
  | x :: xs =>
      if x == '$' then
        match xs with
        | [] => none
        | o :: rest =>
            match closerFor o with
            | some c =>
                match scanTo c rest with
                | some payload => some (o, payload)
                | none => search_tok xs
            | none => search_tok xs
      else search_tok xs

/-- The full text of a matched token (regex group 0). -/
def tok_string (o : Char) (payload : List Char) : String :=
  String.mk ('$' :: o :: (payload ++ [(closerFor o).getD o]))

/-- Model of `JsonSubs.search`: the first matched token of a string, or `None`. -/
def search (value : String) : Option String :=
  (search_tok value.data).map (fun p => tok_string p.1 p.2)

/-- Replacement `s.replace(old, new)` on Python strings: replace every non-overlapping
occurrence of `old`, scanning left to right (`old` is never empty at the
call sites: it is a matched token of at least three characters). -/
def replaceAllF : Nat → List Char → List Char → List Char → List Char
  | 0, s, _, _ => s
  | _ + 1, [], _, _ => []
  | fuel + 1, c :: rest, old, new =>
      if !old.isEmpty && old.isPrefixOf (c :: rest) then
        new ++ replaceAllF fuel ((c :: rest).drop old.length) old new
      else c :: replaceAllF fuel rest old new

def replaceAll (s old new : List Char) : List Char :=
  replaceAllF s.length s old new

/-- Model of `JsonSubs.format_str`: replace every occurrence of the first matched
token of `str_value` by `new_str`; `None` when no token matches. -/
def format_str (str_value : String) (new_str : String) : Option String :=
  match search str_value with
  | none => none
  | some old => some (String.mk (replaceAll str_value.data old.data new_str.data))

/-- The five token kinds recognised by `JsonSubs.type_of`. -/
inductive TKind where
  | str : TKind
  | list : TKind
  | dict : TKind
  | map : TKind
  | func : TKind
deriving DecidableEq

/-- Result of `JsonSubs.type_of`.  The function normally returns a pair
(`("str", key)`, …, or `(None, None)`), but the string and dict branches can
fall through every `elif` and return a bare `None` (`bareNone`), which makes
tuple unpacking or subscription at the call sites raise `TypeError`. -/
inductive TypeOfRes where
  | pair : Option (TKind × String) → TypeOfRes
  | bareNone : TypeOfRes
deriving DecidableEq

/-- Model of `JsonSubs.type_of`.  Falsy values classify as `(None, None)`.  A string
classifies by its first token: `$(name)` without a dot is a plain variable,
`$[name]` a list variable, `${name}` a dict variable, `$<name>` with a dot a
mapping reference; any other matched token falls off the branch list
(`bareNone`).  A dict classifies by the first token of its first key
(`value.keys()[0]`): `$[...]`/`${...}` require the first value to be a
list/dict respectively, `$<...>` is a function call; otherwise the branch
list is exhausted (`bareNone`). -/
def type_of (value : JSON) : TypeOfRes :=
  if value.falsy then TypeOfRes.pair none
  else
    match value with
    | JSON.str s =>
        match search_tok s.data with
        | none => TypeOfRes.pair none
        | some (o, payload) =>
            if o == '(' && !payload.contains '.' then
              TypeOfRes.pair (some (TKind.str, String.mk payload))
            else if o == '[' then
              TypeOfRes.pair (some (TKind.list, String.mk payload))
            else if o == '{' then
              TypeOfRes.pair (some (TKind.dict, String.mk payload))
            else if o == '<' && payload.contains '.' then
              TypeOfRes.pair (some (TKind.map, String.mk payload))
            else TypeOfRes.bareNone
    | JSON.dict kvs =>
        match kvs with
        | [] => TypeOfRes.pair none
        | (k, v0) :: _ =>
            match search_tok k.data with
            | none => TypeOfRes.pair none
            | some (o, payload) =>
                if o == '[' then
                  match v0 with
                  | JSON.list _ => TypeOfRes.pair (some (TKind.list, String.mk payload))
                  | _ => TypeOfRes.bareNone
                else if o == '{' then
                  match v0 with
                  | JSON.dict _ => TypeOfRes.pair (some (TKind.dict, String.mk payload))
                  | _ => TypeOfRes.bareNone
                else if o == '<' then
                  TypeOfRes.pair (some (TKind.func, String.mk payload))
                else TypeOfRes.bareNone
    | _ => TypeOfRes.pair none

/-- The expression `self.type_of(value)[0] is None`, whose subscription
raises `TypeError` when `type_of` returned a bare `None`. -/
def type_of_fst_is_none (v : JSON) : Except Err Bool :=
  match type_of v with
  | TypeOfRes.pair none => Except.ok true
  | TypeOfRes.pair (some _) => Except.ok false
  | TypeOfRes.bareNone => Except.error Err.typeError


/-!
Engine state and the resolver layer.  Every recursive call of the engine
passes `instance_vars` and `default_vars` through unchanged, and `tplsub`
stores them into `self.instance_vars` / `self.default_vars` at each entry,
so inside one expansion the parameters and the attributes always hold the
same two scope objects.  We model them as the threaded state `EngSt`; the
one place where the scope bindings change — `tplsub`'s bootstrap
`instance_vars = value` when both arguments are `None` — is modelled as a
state update (`bootstrap`).
-/

structure EngSt where
  instance_vars : JSON
  default_vars : JSON

/-- The bootstrap at the top of `JsonSubs.tplsub`: if neither scope was
supplied (both `None`), the document itself becomes the instance scope. -/
def bootstrap (value : JSON) (st : EngSt) : EngSt :=
  match st.instance_vars, st.default_vars with
  | JSON.null, JSON.null => { st with instance_vars := value }
  | _, _ => st

/-- Model of `JsonSubs.merge_str`: direct key lookup, instance scope first, then
default scope, `None` when absent from both. -/
def merge_str (key : String) (st : EngSt) : Except Err JSON :=
  match pyIn (JSON.str key) st.instance_vars with
  | Except.error e => Except.error e
  | Except.ok true => pySubscript st.instance_vars (JSON.str key)
  | Except.ok false =>
      match pyIn (JSON.str key) st.default_vars with
      | Except.error e => Except.error e
      | Except.ok true => pySubscript st.default_vars (JSON.str key)
      | Except.ok false => Except.ok JSON.null

/-- One scope's contribution to `merge_dict`: `if key in scope: if
self.type_of(scope[key])[0] is None: ret.update(scope[key])`. -/
def merge_dict_step (key : String) (scope : JSON) (ret : List (String × JSON)) :
    Except Err (List (String × JSON)) :=
  match pyIn (JSON.str key) scope with
  | Except.error e => Except.error e
  | Except.ok false => Except.ok ret
  | Except.ok true =>
      match pySubscript scope (JSON.str key) with
      | Except.error e => Except.error e
      | Except.ok v =>
          match type_of_fst_is_none v with
          | Except.error e => Except.error e
          | Except.ok false => Except.ok ret
          | Except.ok true => pyDictUpdate ret v

/-- Model of `JsonSubs.merge_dict`: start from a fresh empty dict, `update` it with
the instance-scope value (when present and classified as already resolved),
then `update` it with the default-scope value (same guard) — so entries of
the default scope overwrite entries of the instance scope on conflict. -/
def merge_dict (key : String) (st : EngSt) : Except Err JSON :=
  match merge_dict_step key st.instance_vars [] with
  | Except.error e => Except.error e
  | Except.ok ret =>
      match merge_dict_step key st.default_vars ret with
      | Except.error e => Except.error e
      | Except.ok ret2 => Except.ok (JSON.dict ret2)

/-- One scope's contribution to `merge_list`: `if key in scope: if
self.type_of(scope[key])[0] is None: ret.extend(scope[key])`. -/
def merge_list_step (key : String) (scope : JSON) (ret : List JSON) :
    Except Err (List JSON) :=
  match pyIn (JSON.str key) scope with
  | Except.error e => Except.error e
  | Except.ok false => Except.ok ret
  | Except.ok true =>
      match pySubscript scope (JSON.str key) with
      | Except.error e => Except.error e
      | Except.ok v =>
          match type_of_fst_is_none v with
          | Except.error e => Except.error e
          | Except.ok false => Except.ok ret
          | Except.ok true => pyExtend ret v

/-- Model of `JsonSubs.merge_list`: start from a fresh empty list, `extend` it with
the instance-scope value (when present and classified as already resolved),
then with the default-scope value — instance elements first. -/
def merge_list (key : String) (st : EngSt) : Except Err JSON :=
  match merge_list_step key st.instance_vars [] with
  | Except.error e => Except.error e
  | Except.ok ret =>
      match merge_list_step key st.default_vars ret with
      | Except.error e => Except.error e
      | Except.ok ret2 => Except.ok (JSON.list ret2)

/-!
Model of the jmespath library on the fragment the engine feeds it: a
mapping-reference payload is a dotted chain of identifiers
(`MapName.key1.key2...`).  `jmespath.compile` rejects anything that is not
a valid expression; `search` descends through dict keys and yields `null`
as soon as a segment is missing or the current value is not a dict (and
`null` when searching a `None` scope).
-/

/-- Split a character list on `'.'` (the behaviour of `s.split(".")` /
`String.splitOn "."` for the one-character separator): `""` gives `[""]`,
separators at the ends give empty segments. -/
def splitDots : List Char → List (List Char)
  | [] => [[]]
  | c :: rest =>
      if c == '.' then [] :: splitDots rest
      else
        match splitDots rest with
        | p :: ps => (c :: p) :: ps
        | [] => [[c]]

def jmes_ident_ok (s : List Char) : Bool :=
  match s with
  | [] => false
  | c :: rest => (c.isAlpha || c == '_') && rest.all (fun d => d.isAlphanum || d == '_')

/-- Model of `jmespath.compile(key)`: `key` must be a string forming a dotted chain
of identifiers (the only shape the engine produces); the compiled result is
the list of path segments. -/
def jmes_compile (key : JSON) : Except Err (List String) :=
  match key with
  | JSON.str s =>
      let parts := (splitDots s.data).map String.mk
      if parts.all (fun p => jmes_ident_ok p.data) then Except.ok parts
      else Except.error Err.jmesError
  | _ => Except.error Err.jmesError

/-- Model of `path.search(v)` for a dotted identifier path. -/
def jmes_search (path : List String) (v : JSON) : JSON :=
  match path with
  | [] => v
  | k :: rest =>
      match v with
      | JSON.dict kvs =>
          match lookupD k kvs with
          | some v2 => jmes_search rest v2
          | none => JSON.null
      | _ => JSON.null

/-!
The builtin functions of `DefaultFunc`, plus `JsonSubs.func_mapping`.
-/

/-- Model of `DefaultFunc.func_join`: all elements must be strings, otherwise the
loop breaks out to the `IcsException` raise; a non-string delimiter has no
`join` attribute (`AttributeError`, folded into `typeError`). -/
def func_join (delimiter : JSON) (params : JSON) : Except Err JSON :=
  match params with
  | JSON.list xs =>
      if xs.all (fun v => match v with | JSON.str _ => true | _ => false) then
        match delimiter with
        | JSON.str d =>
            Except.ok (JSON.str (String.intercalate d
              (xs.map (fun v => match v with | JSON.str s => s | _ => ""))))
        | _ => Except.error Err.typeError
      else Except.error Err.invalidParams
  | _ => Except.error Err.invalidParams

/-- Standard base64 alphabet. -/
def b64chars : List Char :=
  "ABCDEFGHIJKLMNOPQRSTUVWXYZabcdefghijklmnopqrstuvwxyz0123456789+/".data

def b64c (n : Nat) : Char := b64chars.getD n 'A'

/-- Base64 of a byte list (model of `base64.b64encode` on the byte strings
of Python 2). -/
def b64encode : List Nat → List Char
  | a :: b :: c :: rest =>
      b64c (a / 4) :: b64c ((a % 4) * 16 + b / 16) ::
      b64c ((b % 16) * 4 + c / 64) :: b64c (c % 64) :: b64encode rest
  | [a, b] =>
      [b64c (a / 4), b64c ((a % 4) * 16 + b / 16), b64c ((b % 16) * 4), '=']
  | [a] => [b64c (a / 4), b64c ((a % 4) * 16), '=', '=']
  | [] => []

/-- Model of `DefaultFunc.func_base64`. -/
def func_base64 (params : JSON) : Except Err JSON :=
  match params with
  | JSON.str s => Except.ok (JSON.str (String.mk (b64encode (s.data.map Char.toNat))))
  | _ => Except.error Err.invalidParams

/-- Model of `DefaultFunc.func_select`: `params[index - 1]` for an int index (Python
bools are ints), `params[int(index) - 1]` for a string index; any other
shape reaches the `IcsException` raise. -/
def func_select (index : JSON) (params : JSON) : Except Err JSON :=
  match params with
  | JSON.list xs =>
      match index with
      | JSON.num i => pyIndex xs (i - 1)
      | JSON.bool b => pyIndex xs ((if b then 1 else 0) - 1)
      | JSON.str s =>
          match py_int_of_string s with
          | some i => pyIndex xs (i - 1)
          | none => Except.error Err.valueError
      | _ => Except.error Err.invalidParams
  | _ => Except.error Err.invalidParams

/-- Model of `DefaultFunc.func_circle_select`: like `func_select` but the adjusted
index is taken modulo the list length (`ZeroDivisionError` on an empty
list). -/
def func_circle_select (index : JSON) (params : JSON) : Except Err JSON :=
  match params with
  | JSON.list xs =>
      match index with
      | JSON.num i =>
          if xs.isEmpty then Except.error Err.zeroDivisionError
          else pyIndex xs ((i - 1) % (xs.length : Int))
      | JSON.bool b =>
          if xs.isEmpty then Except.error Err.zeroDivisionError
          else pyIndex xs (((if b then (1 : Int) else 0) - 1) % (xs.length : Int))
      | JSON.str s =>
          match py_int_of_string s with
          | some i =>
              if xs.isEmpty then Except.error Err.zeroDivisionError
              else pyIndex xs ((i - 1) % (xs.length : Int))
          | none => Except.error Err.valueError
      | _ => Except.error Err.invalidParams
  | _ => Except.error Err.invalidParams

/-- The `reduce(lambda x, y: x[y], args, tmp0)` descent of `func_mapping`. -/
def foldSubscript (x : JSON) : List JSON → Except Err JSON
  | [] => Except.ok x
  | y :: ys =>
      match pySubscript x y with
      | Except.ok z => foldSubscript z ys
      | Except.error e => Except.error e

/-- The `try` block of `func_mapping` against the located scope `tmp`:
`tmp0 = tmp[map_name]; reduce(lambda x, y: x[y], args, tmp0)`, with every
exception re-raised as the `IcsException` `mappingError`. -/
def mapping_try (tmp : JSON) (map_name : JSON) (args : List JSON) : Except Err JSON :=
  match pySubscript tmp map_name with
  | Except.error _ => Except.error Err.mappingError
  | Except.ok tmp0 =>
      match foldSubscript tmp0 args with
      | Except.ok r => Except.ok r
      | Except.error _ => Except.error Err.mappingError

/-- Model of `JsonSubs.func_mapping`: the map name is looked up in the default scope
first, then the instance scope; when absent from both the function returns
`None` without an error.  The subscription `tmp[map_name]` and the keyed
descent run inside a `try` whose handler raises the `IcsException`
`mappingError`.  (The guard `not args or isinstance(args, tuple)` is always
true since `*args` is a tuple.) -/
def func_mapping (st : EngSt) (map_name : JSON) (args : List JSON) : Except Err JSON :=
  match map_name with
  | JSON.str _ =>
      (match pyIn map_name st.default_vars with
       | Except.error e => Except.error e
       | Except.ok true => mapping_try st.default_vars map_name args
       | Except.ok false =>
           match pyIn map_name st.instance_vars with
           | Except.error e => Except.error e
           | Except.ok true => mapping_try st.instance_vars map_name args
           | Except.ok false => Except.ok JSON.null)
  | _ => Except.error Err.invalidParams

/-!
The `Include` builtin reads files and decodes them with `json.load` — note
that, unlike the file-based entry point `tplsubs` (which goes through
`fp_to_json` and `strip_comment`), `func_include`'s live code path decodes
the raw file contents directly: its first branch (`isinstance(args,
basestring)`) is dead, since `*args` always binds a tuple, and it refers to
an undefined name `JsonSub` besides.  The file system is modelled as an
association list from path to contents; the JSON codec (an external
collaborator) is modelled by a standard JSON parser on the fragment the
library uses: objects, arrays, strings with the common escapes, integers,
and the three literals.
-/

abbrev FS := List (String × String)

def lookupFS (fs : FS) (path : String) : Option String :=
  match fs with
  | [] => none
  | (p, c) :: rest => if p = path then some c else lookupFS rest path

def isJsonWs (c : Char) : Bool := [' ', '\t', '\n', '\r'].contains c

def skipWs (cs : List Char) : List Char := cs.dropWhile isJsonWs

def escPairs : List (Char × Char) :=
  [('"', '"'), ('\\', '\\'), ('/', '/'), ('n', '\n'), ('t', '\t'), ('r', '\r'),
   ('b', Char.ofNat 8), ('f', Char.ofNat 12)]

def escChar (e : Char) : Option Char :=
  (escPairs.find? (fun p => p.1 == e)).map Prod.snd

/-- Body of a JSON string literal, after the opening quote. -/
def parseStrBody : List Char → Option (List Char × List Char)
  | [] => none
  | '"' :: rest => some ([], rest)
  | '\\' :: e :: rest =>
      match escChar e with
      | some c => (parseStrBody rest).map (fun p => (c :: p.1, p.2))
      | none => none
  | '\\' :: [] => none
  | c :: rest => (parseStrBody rest).map (fun p => (c :: p.1, p.2))

def parseDigits (cs : List Char) : Option (Nat × List Char) :=
  let ds := cs.takeWhile Char.isDigit
  if ds.isEmpty then none
  else some (ds.foldl (fun acc c => acc * 10 + (c.toNat - '0'.toNat)) 0,
             cs.dropWhile Char.isDigit)

mutual

def parseVal : Nat → List Char → Option (JSON × List Char)
  | 0, _ => none
  | fuel + 1, cs =>
      match skipWs cs with
      | 'n' :: 'u' :: 'l' :: 'l' :: rest => some (JSON.null, rest)
      | 't' :: 'r' :: 'u' :: 'e' :: rest => some (JSON.bool true, rest)
      | 'f' :: 'a' :: 'l' :: 's' :: 'e' :: rest => some (JSON.bool false, rest)
      | '"' :: rest => (parseStrBody rest).map (fun p => (JSON.str (String.mk p.1), p.2))
      | '[' :: rest =>
          (match skipWs rest with
           | ']' :: rest2 => some (JSON.list [], rest2)
           | cs2 => parseElems fuel cs2 [])
      | '{' :: rest =>
          (match skipWs rest with
           | '}' :: rest2 => some (JSON.dict [], rest2)
           | cs2 => parsePairs fuel cs2 [])
      | '-' :: rest => (parseDigits rest).map (fun p => (JSON.num (-(p.1 : Int)), p.2))
      | c :: rest =>
          if c.isDigit then
            (parseDigits (c :: rest)).map (fun p => (JSON.num (p.1 : Int), p.2))
          else none
      | [] => none

def parseElems : Nat → List Char → List JSON → Option (JSON × List Char)
  | 0, _, _ => none
  | fuel + 1, cs, acc =>
      match parseVal fuel cs with
      | none => none
      | some (v, rest) =>
          match skipWs rest with
          | ',' :: rest2 => parseElems fuel rest2 (acc ++ [v])
          | ']' :: rest2 => some (JSON.list (acc ++ [v]), rest2)
          | _ => none

def parsePairs : Nat → List Char → List (String × JSON) → Option (JSON × List Char)
  | 0, _, _ => none
  | fuel + 1, cs, acc =>
      match skipWs cs with
      | '"' :: rest =>
          (match parseStrBody rest with
           | none => none
           | some (kcs, rest2) =>
               match skipWs rest2 with
               | ':' :: rest3 =>
                   (match parseVal fuel rest3 with
                    | none => none
                    | some (v, rest4) =>
                        let acc2 := dictSet acc (String.mk kcs) v
                        match skipWs rest4 with
                        | ',' :: rest5 => parsePairs fuel rest5 acc2
                        | '}' :: rest5 => some (JSON.dict acc2, rest5)
                        | _ => none)
               | _ => none)
      | _ => none

end

/-- Model of `json.loads` (also backing `json.load`): parse a complete JSON document,
requiring only trailing whitespace after it; `none` models the `ValueError`
raised on malformed input. -/
def json_loads (s : String) : Option JSON :=
  match parseVal (2 * s.length + 4) s.data with
  | some (v, rest) => if (skipWs rest).isEmpty then some v else none
  | none => none

/-- Characters matched by the regex class `\s`. -/
def isPyWs (c : Char) : Bool :=
  [' ', '\t', '\n', '\r', Char.ofNat 11, Char.ofNat 12].contains c

/-- One pass of `re.sub('^\s*#.*', '', data, flags=re.MULTILINE)`.  The
anchor `^` holds at the start and after each newline; at an anchored
position the pattern matches exactly when the first non-whitespace
character reachable from it is `#` (with `\s*` free to cross newlines), and
the match extends to the end of that line.  When the match fails the scan
moves one character at a time until the next anchor. -/
def strip_go : Nat → Bool → List Char → List Char
  | 0, _, cs => cs
  | _ + 1, _, [] => []
  | fuel + 1, anchor, c :: rest =>
      if anchor then
        match (c :: rest).dropWhile isPyWs with
        | '#' :: tail => strip_go fuel false (tail.dropWhile (fun d => !(d == '\n')))
        | _ => c :: strip_go fuel (c == '\n') rest
      else c :: strip_go fuel (c == '\n') rest

/-- Model of `JsonSubs.strip_comment`: remove every full-line `#` comment. -/
def strip_comment (data : String) : String :=
  String.mk (strip_go (data.length + 1) true data.data)

/-- Model of `JsonSubs.fp_to_json`: decode a file's text after stripping full-line
comments (used by the `tplsubs` entry point, not by `func_include`). -/
def fp_to_json (contents : String) : Option JSON :=
  json_loads (strip_comment contents)

mutual

/-- Model of `dict_merge` from `opslib/icsutils/misc.py`: returns `b` unless `b` is a
dict; otherwise writes each entry of `b` into a (deep) copy of `a`,
recursing when the existing value under the same key is itself a dict.
(`deepcopy` is the identity on immutable values.)  Writing into a non-dict
`a` raises `TypeError`. -/
def dict_merge (a b : JSON) : Except Err JSON :=
  match b with
  | JSON.dict bkvs =>
      match a with
      | JSON.dict akvs =>
          match dict_merge_items akvs bkvs with
          | Except.ok r => Except.ok (JSON.dict r)
          | Except.error e => Except.error e
      | _ => Except.error Err.typeError
  | _ => Except.ok b

def dict_merge_items (res : List (String × JSON)) :
    List (String × JSON) → Except Err (List (String × JSON))
  | [] => Except.ok res
  | (k, v) :: rest =>
      match (match lookupD k res with
             | some (JSON.dict ekvs) => dict_merge (JSON.dict ekvs) v
             | _ => Except.ok v) with
      | Except.ok newv => dict_merge_items (dictSet res k newv) rest
      | Except.error e => Except.error e

end

/-- The loop of `func_include`'s live (tuple) branch: `text` starts as `{}`
and is deep-merged with each decoded file in order; a non-string element
breaks out to the `IcsException` raise. -/
def func_include_go (fs : FS) (text : JSON) : List JSON → Except Err JSON
  | [] => Except.ok text
  | a :: rest =>
      match a with
      | JSON.str path =>
          (match lookupFS fs path with
           | none => Except.error Err.ioError
           | some contents =>
               match json_loads contents with
               | none => Except.error Err.valueError
               | some j =>
                   match dict_merge text j with
                   | Except.ok text2 => func_include_go fs text2 rest
                   | Except.error e => Except.error e)
      | _ => Except.error Err.invalidParams

/-- Model of `DefaultFunc.func_include`: the raw contents of each named file are
decoded with `json.load` (no comment stripping on this path) and
deep-merged left to right. -/
def func_include (fs : FS) (args : List JSON) : Except Err JSON :=
  func_include_go fs (JSON.dict []) args


/-!
Function dispatch.  `tplsub_func` resolves the argument expression first
(outside the `try`), then calls the registry entry: with keyword arguments
when the resolved argument is a dict, positionally when it is a list, with
no arguments when it is falsy, and as a single positional argument
otherwise.  Any exception out of the call itself is caught and re-raised as
the `IcsException` `invalidFunction`.  The registry is modelled in its
initial state (the six builtins installed by the constructor;
`register_builtin` is not involved in any verified behaviour).
-/

def builtin_names : List String :=
  ["Join", "Base64", "Select", "CSelect", "Include", "Mapping"]

/-- Keyword-argument call with the two expected parameter names (in either
order); anything else raises `TypeError`. -/
def kw2 (kvs : List (String × JSON)) (n1 n2 : String) : Option (JSON × JSON) :=
  if kvs.length == 2 then
    match lookupD n1 kvs, lookupD n2 kvs with
    | some a, some b => some (a, b)
    | _, _ => none
  else none

def kw1 (kvs : List (String × JSON)) (n1 : String) : Option JSON :=
  match kvs with
  | [(k, v)] => if k == n1 then some v else none
  | _ => none

/-- Positional call `builtin[func](*params)`. -/
def call_args (fs : FS) (st : EngSt) (fname : String) (args : List JSON) :
    Except Err JSON :=
  match fname, args with
  | "Join", [d, p] => func_join d p
  | "Base64", [p] => func_base64 p
  | "Select", [i, p] => func_select i p
  | "CSelect", [i, p] => func_circle_select i p
  | "Include", l => func_include fs l
  | "Mapping", m :: rest => func_mapping st m rest
  | _, _ => Except.error Err.typeError

/-- Single-argument call `builtin[func](params)`. -/
def call_single (fs : FS) (st : EngSt) (fname : String) (p : JSON) :
    Except Err JSON :=
  match fname with
  | "Base64" => func_base64 p
  | "Include" => func_include fs [p]
  | "Mapping" => func_mapping st p []
  | _ => Except.error Err.typeError

/-- Keyword call `builtin[func](**params)`. -/
def call_kwargs (fs : FS) (st : EngSt) (fname : String)
    (kvs : List (String × JSON)) : Except Err JSON :=
  match fname with
  | "Join" =>
      match kw2 kvs "delimiter" "params" with
      | some (d, p) => func_join d p
      | none => Except.error Err.typeError
  | "Select" =>
      match kw2 kvs "index" "params" with
      | some (i, p) => func_select i p
      | none => Except.error Err.typeError
  | "CSelect" =>
      match kw2 kvs "index" "params" with
      | some (i, p) => func_circle_select i p
      | none => Except.error Err.typeError
  | "Base64" =>
      match kw1 kvs "params" with
      | some p => func_base64 p
      | none => Except.error Err.typeError
  | "Include" =>
      if kvs.isEmpty then func_include fs [] else Except.error Err.typeError
  | "Mapping" =>
      match kw1 kvs "map_name" with
      | some m => func_mapping st m []
      | none => Except.error Err.typeError
  | _ => Except.error Err.typeError

/-- Shape dispatch of the resolved argument (dict, list, falsy, single). -/
def call_builtin (fs : FS) (st : EngSt) (fname : String) (params : JSON) :
    Except Err JSON :=
  match params with
  | JSON.dict kvs => call_kwargs fs st fname kvs
  | JSON.list xs => call_args fs st fname xs
  | _ => if params.falsy then call_args fs st fname []
         else call_single fs st fname params

/-!
The expander.  The recursion of the source (`tplsub`, `tplsub_dict`,
`tplsub_list`, `tplsub_str`, `tplsub_func`, `update_str`, `do_sub`,
`merge_map`) is not structurally decreasing (scope values of arbitrary
shape re-enter it, and string rewriting can loop on self-referential
scopes, where the Python original recurses without bound), so each function
takes a fuel counter and every recursive call decrements it; `outOfFuel`
models the nonterminating executions.  Results are paired with the threaded
engine state. -/

abbrev ERes := Except Err JSON × EngSt

mutual

/-- Model of `JsonSubs.tplsub`: the expansion entry point. -/
def tplsub (fs : FS) : Nat → JSON → EngSt → ERes
  | 0, _, st => (Except.error Err.outOfFuel, st)
  | fuel + 1, value, st =>
      let st := bootstrap value st
      match value with
      | JSON.dict kvs => tplsub_dict fs fuel kvs st
      | JSON.list xs =>
          (match tplsub_list fs fuel xs st with
           | (Except.ok ys, st2) => (Except.ok (JSON.list ys), st2)
           | (Except.error e, st2) => (Except.error e, st2))
      | JSON.str s => tplsub_str fs fuel s st
      | JSON.num _ => (Except.ok value, st)
      | JSON.bool _ => (Except.ok value, st)
      | JSON.null => (Except.ok value, st)

/-- Model of `JsonSubs.tplsub_dict`: a dict classified as a function call dispatches
to `tplsub_func` on its first value; otherwise every value is expanded and
all keys are preserved.  Unpacking a bare `None` from `type_of` raises
`TypeError`. -/
def tplsub_dict (fs : FS) : Nat → List (String × JSON) → EngSt → ERes
  | 0, _, st => (Except.error Err.outOfFuel, st)
  | fuel + 1, kvs, st =>
      match type_of (JSON.dict kvs) with
      | TypeOfRes.bareNone => (Except.error Err.typeError, st)
      | TypeOfRes.pair (some (TKind.func, fname)) =>
          (match kvs with
           | (_, v0) :: _ => tplsub_func fs fuel fname v0 st
           | [] => (Except.error Err.typeError, st))
      | TypeOfRes.pair _ =>
          (match tplsub_items fs fuel kvs st with
           | (Except.ok rs, st2) => (Except.ok (JSON.dict rs), st2)
           | (Except.error e, st2) => (Except.error e, st2))

/-- The `for key, value in dict_value.items()` loop of `tplsub_dict`. -/
def tplsub_items (fs : FS) :
    Nat → List (String × JSON) → EngSt → Except Err (List (String × JSON)) × EngSt
  | 0, _, st => (Except.error Err.outOfFuel, st)
  | _ + 1, [], st => (Except.ok [], st)
  | fuel + 1, (k, v) :: rest, st =>
      match tplsub fs fuel v st with
      | (Except.ok v2, st2) =>
          (match tplsub_items fs fuel rest st2 with
           | (Except.ok rs, st3) => (Except.ok ((k, v2) :: rs), st3)
           | (Except.error e, st3) => (Except.error e, st3))
      | (Except.error e, st2) => (Except.error e, st2)

/-- Model of `JsonSubs.tplsub_list`: expand every element, preserving order. -/
def tplsub_list (fs : FS) :
    Nat → List JSON → EngSt → Except Err (List JSON) × EngSt
  | 0, _, st => (Except.error Err.outOfFuel, st)
  | _ + 1, [], st => (Except.ok [], st)
  | fuel + 1, x :: xs, st =>
      match tplsub fs fuel x st with
      | (Except.ok y, st2) =>
          (match tplsub_list fs fuel xs st2 with
           | (Except.ok ys, st3) => (Except.ok (y :: ys), st3)
           | (Except.error e, st3) => (Except.error e, st3))
      | (Except.error e, st2) => (Except.error e, st2)

/-- Model of `JsonSubs.tplsub_str`: a string with no classified token is returned
unchanged; otherwise the first token is resolved by `do_sub` and spliced by
`update_str`.  Subscripting a bare `None` from `type_of` raises
`TypeError`. -/
def tplsub_str (fs : FS) : Nat → String → EngSt → ERes
  | 0, _, st => (Except.error Err.outOfFuel, st)
  | fuel + 1, s, st =>
      match type_of (JSON.str s) with
      | TypeOfRes.bareNone => (Except.error Err.typeError, st)
      | TypeOfRes.pair none => (Except.ok (JSON.str s), st)
      | TypeOfRes.pair (some _) =>
          match do_sub fs fuel (JSON.str s) st with
          | (Except.ok new_str, st2) => update_str fs fuel s new_str st2
          | (Except.error e, st2) => (Except.error e, st2)

/-- Model of `JsonSubs.do_sub`: dispatch on the token kind to the merge functions.
(The `func` kind can only arise from dict values, which never reach
`do_sub`; no branch of the source handles it, so it returns the implicit
`None`.) -/
def do_sub (fs : FS) : Nat → JSON → EngSt → ERes
  | 0, _, st => (Except.error Err.outOfFuel, st)
  | fuel + 1, value, st =>
      match type_of value with
      | TypeOfRes.bareNone => (Except.error Err.typeError, st)
      | TypeOfRes.pair none => (Except.ok value, st)
      | TypeOfRes.pair (some (k, key)) =>
          match k with
          | TKind.str => (merge_str key st, st)
          | TKind.list => (merge_list key st, st)
          | TKind.dict => (merge_dict key st, st)
          | TKind.map => merge_map fs fuel (JSON.str key) st
          | TKind.func => (Except.ok JSON.null, st)

/-- Model of `JsonSubs.merge_map`: a token-free key is compiled as a jmespath
expression and searched in the instance scope first, falling back to the
default scope when the instance result is falsy, and to `None` when both
are; a key that still classifies as a token is expanded and retried. -/
def merge_map (fs : FS) : Nat → JSON → EngSt → ERes
  | 0, _, st => (Except.error Err.outOfFuel, st)
  | fuel + 1, key, st =>
      match type_of_fst_is_none key with
      | Except.error e => (Except.error e, st)
      | Except.ok true =>
          (match jmes_compile key with
           | Except.error e => (Except.error e, st)
           | Except.ok path =>
               let r1 := jmes_search path st.instance_vars
               if !r1.falsy then (Except.ok r1, st)
               else
                 let r2 := jmes_search path st.default_vars
                 if !r2.falsy then (Except.ok r2, st)
                 else (Except.ok JSON.null, st))
      | Except.ok false =>
          match tplsub fs fuel key st with
          | (Except.ok key2, st2) => merge_map fs fuel key2 st2
          | (Except.error e, st2) => (Except.error e, st2)

/-- Model of `JsonSubs.update_str`: a string replacement is spliced into the
original string and rewriting continues; a non-string value classified as
resolved replaces the whole string; otherwise the value is expanded first
and the splice retried.  (When `format_str` finds no token it returns
`None`, and `tplsub_str(None)` returns that `None` since `type_of(None)`
is `(None, None)`.) -/
def update_str (fs : FS) : Nat → String → JSON → EngSt → ERes
  | 0, _, _, st => (Except.error Err.outOfFuel, st)
  | fuel + 1, str_value, new_str, st =>
      match new_str with
      | JSON.str ns =>
          (match format_str str_value ns with
           | some s2 => tplsub_str fs fuel s2 st
           | none => (Except.ok JSON.null, st))
      | _ =>
          match type_of_fst_is_none new_str with
          | Except.error e => (Except.error e, st)
          | Except.ok true => (Except.ok new_str, st)
          | Except.ok false =>
              match tplsub fs fuel new_str st with
              | (Except.ok ns2, st2) => update_str fs fuel str_value ns2 st2
              | (Except.error e, st2) => (Except.error e, st2)

/-- Model of `JsonSubs.tplsub_func`: unknown names raise `unknownFunction`; the
argument expression is resolved outside the `try`; exceptions from the call
itself are re-raised as `invalidFunction`. -/
def tplsub_func (fs : FS) : Nat → String → JSON → EngSt → ERes
  | 0, _, _, st => (Except.error Err.outOfFuel, st)
  | fuel + 1, fname, value, st =>
      if builtin_names.contains fname then
        match tplsub fs fuel value st with
        | (Except.error e, st2) => (Except.error e, st2)
        | (Except.ok params, st2) =>
            match call_builtin fs st2 fname params with
            | Except.ok r => (Except.ok r, st2)
            | Except.error _ => (Except.error Err.invalidFunction, st2)
      else (Except.error Err.unknownFunction, st)

end

/-!
Definitions used by the statements: full resolvedness of a document (no
token anywhere, which makes expansion a no-op), and a fuel bound sufficient
for the structural descent of `tplsub` on such documents.
-/

/-- The string contains no token the pattern matcher would find. -/
def noTok (s : String) : Bool := (search_tok s.data).isNone

mutual

/-- A document is fully resolved: no string and no dict key contains a
token. -/
def resolved : JSON → Bool
  | JSON.null => true
  | JSON.bool _ => true
  | JSON.num _ => true
  | JSON.str s => noTok s
  | JSON.list xs => resolvedL xs
  | JSON.dict kvs => resolvedD kvs

def resolvedL : List JSON → Bool
  | [] => true
  | x :: xs => resolved x && resolvedL xs

def resolvedD : List (String × JSON) → Bool
  | [] => true
  | (k, v) :: kvs => noTok k && resolved v && resolvedD kvs

end

mutual

/-- Fuel sufficient for `tplsub` to finish its structural descent. -/
def needF : JSON → Nat
  | JSON.list xs => 2 + needFL xs
  | JSON.dict kvs => 2 + needFD kvs
  | _ => 2

def needFL : List JSON → Nat
  | [] => 1
  | x :: xs => 1 + max (needF x) (needFL xs)

def needFD : List (String × JSON) → Nat
  | [] => 1
  | (_, v) :: kvs => 1 + max (needF v) (needFD kvs)

end

/-- Both scope arguments are `None` (the self-reference bootstrap case of
`tplsub`). -/
def bothNull (st : EngSt) : Prop :=
  st.instance_vars = JSON.null ∧ st.default_vars = JSON.null

/-!
Concrete fixtures used by the closed counterexamples and witnesses.
-/

def stC1x : EngSt :=
  ⟨JSON.dict [("k", JSON.dict [("a", JSON.str "I"), ("i", JSON.num 1)])],
   JSON.dict [("k", JSON.dict [("a", JSON.str "D"), ("d", JSON.num 2)])]⟩

def stC2x : EngSt :=
  ⟨JSON.dict [("M", JSON.dict [("k", JSON.str "I")])],
   JSON.dict [("M", JSON.dict [("k", JSON.str "D")])]⟩

def stC3x : EngSt :=
  ⟨JSON.dict [("L", JSON.list [JSON.str "$(x)"]), ("x", JSON.str "v")], JSON.dict []⟩

def stMapx : EngSt :=
  ⟨JSON.dict [],
   JSON.dict [("Regions", JSON.dict [("us-west-2", JSON.dict [("ami", JSON.str "ami-123")])])]⟩

def stEmptyx : EngSt := ⟨JSON.dict [], JSON.dict []⟩

/-- Contents of a file whose first line is a full-line `#` comment. -/
def incContents : String := "# note\n\x7b\"a\": 1\x7d"

def fsC7x : FS := [("inc.json", incContents)]

def fsC7w : FS :=
  [("a.json", "\x7b\"x\": \x7b\"p\": 1\x7d\x7d"),
   ("b.json", "\x7b\"x\": \x7b\"q\": 2\x7d, \"y\": 3\x7d")]

/-- Modelled from the spec: the merge the claim describes for a dict-variable
token found in both scopes — "instance keys override default keys on
conflict via update semantics", i.e. the default dict updated by the
instance dict.  Used only to compare against the code's `merge_dict`. -/
def merge_dict_claimed (key : String) (st : EngSt) : Option JSON :=
  match st.instance_vars, st.default_vars with
  | JSON.dict iv, JSON.dict dv =>
      match lookupD key iv, lookupD key dv with
      | some (JSON.dict a), some (JSON.dict b) => some (JSON.dict (dictUpdate b a))
      | _, _ => none
  | _, _ => none

/-!
Supporting lemmas.
-/

theorem needF_pos (v : JSON) : 1 ≤ needF v := by
  cases v <;> simp [needF] <;> omega

theorem needFL_pos (xs : List JSON) : 1 ≤ needFL xs := by
  cases xs <;> simp [needFL]

theorem needFD_pos (kvs : List (String × JSON)) : 1 ≤ needFD kvs := by
  rcases kvs with _ | ⟨⟨k, v⟩, rest⟩ <;> simp [needFD]

theorem bootstrap_id (v : JSON) (st : EngSt) (h : ¬ bothNull st) :
    bootstrap v st = st := by
  rcases st with ⟨iv, dv⟩
  simp only [bothNull] at h
  cases iv <;> cases dv <;> simp_all [bootstrap]

theorem type_of_str_noTok (s : String) (h : search_tok s.data = none) :
    type_of (JSON.str s) = TypeOfRes.pair none := by
  by_cases hf : (JSON.str s).falsy <;> simp [type_of, hf, h]

theorem type_of_list_eq (xs : List JSON) :
    type_of (JSON.list xs) = TypeOfRes.pair none := by
  cases xs <;> simp [type_of, JSON.falsy]

theorem type_of_dict_res (kvs : List (String × JSON)) (h : resolvedD kvs = true) :
    type_of (JSON.dict kvs) = TypeOfRes.pair none := by
  rcases kvs with _ | ⟨⟨k, v⟩, tl⟩
  · simp [type_of, JSON.falsy]
  · have hk : search_tok k.data = none := by
      simp only [resolvedD, Bool.and_eq_true] at h
      simpa [noTok, Option.isNone_iff_eq_none] using h.1.1
    by_cases hf : (JSON.dict ((k, v) :: tl)).falsy <;> simp [type_of, hf, hk]

theorem lookupD_any_eq_true {k : String} {l : List (String × JSON)} {v : JSON}
    (h : lookupD k l = some v) : l.any (fun p => p.1 == k) = true := by
  induction l with
  | nil => simp [lookupD] at h
  | cons hd tl ih =>
      obtain ⟨k2, v2⟩ := hd
      by_cases hb : k2 = k
      · subst hb; simp
      · simp only [lookupD, if_neg hb] at h
        simp [hb, ih h]

theorem lookupD_none_iff_any_false (k : String) (l : List (String × JSON)) :
    lookupD k l = none ↔ l.any (fun p => p.1 == k) = false := by
  induction l with
  | nil => simp [lookupD]
  | cons hd tl ih =>
      obtain ⟨k2, v2⟩ := hd
      by_cases hb : k2 = k
      · subst hb; simp [lookupD]
      · simp [lookupD, hb, ih]

theorem lookupD_append (k : String) (a b : List (String × JSON)) :
    lookupD k (a ++ b) =
      (match lookupD k a with
       | some v => some v
       | none => lookupD k b) := by
  induction a with
  | nil => simp [lookupD]
  | cons hd tl ih =>
      obtain ⟨k2, v2⟩ := hd
      by_cases hb : k2 = k <;> simp [lookupD, hb, ih]

theorem any_keys_iff (l : List (String × JSON)) (k : String) :
    l.any (fun p => p.1 == k) = true ↔ k ∈ l.map Prod.fst := by
  simp [List.any_eq_true, List.mem_map, beq_iff_eq]

theorem lookupD_map_set_self (k : String) (v : JSON) (a : List (String × JSON)) :
    lookupD k (a.map (fun p => if p.1 = k then (k, v) else p)) =
      if a.any (fun p => p.1 == k) then some v else none := by
  induction a with
  | nil => simp [lookupD]
  | cons hd tl ih =>
      obtain ⟨k3, v3⟩ := hd
      simp only [List.map_cons, List.any_cons]
      by_cases hb : k3 = k
      · rw [if_pos hb]
        simp [lookupD, hb]
      · rw [if_neg hb]
        have hb2 : (k3 == k) = false := beq_eq_false_iff_ne.mpr hb
        simp only [hb2, Bool.false_or]
        simp [lookupD, hb, ih]

theorem lookupD_map_set_other (k k2 : String) (v : JSON) (a : List (String × JSON))
    (h : ¬ k2 = k) :
    lookupD k (a.map (fun p => if p.1 = k2 then (k2, v) else p)) = lookupD k a := by
  induction a with
  | nil => simp
  | cons hd tl ih =>
      obtain ⟨k3, v3⟩ := hd
      simp only [List.map_cons]
      by_cases hb : k3 = k2
      · rw [if_pos hb]
        have hb2 : ¬ k3 = k := by rw [hb]; exact h
        simp [lookupD, h, hb2, ih]
      · rw [if_neg hb]
        by_cases hbk : k3 = k <;> simp [lookupD, hbk, ih]

theorem lookupD_dictSet (a : List (String × JSON)) (k k2 : String) (v : JSON) :
    lookupD k (dictSet a k2 v) = if k2 = k then some v else lookupD k a := by
  unfold dictSet
  by_cases hk : k2 = k
  · rw [hk]
    by_cases hmem : a.any (fun p => p.1 == k) = true
    · rw [if_pos hmem, lookupD_map_set_self, if_pos hmem, if_pos rfl]
    · have hmf : a.any (fun p => p.1 == k) = false := by
        cases hcase : a.any (fun p => p.1 == k)
        · rfl
        · exact absurd hcase hmem
      rw [if_neg hmem, lookupD_append, (lookupD_none_iff_any_false k a).mpr hmf]
      simp [lookupD]
  · by_cases hmem : a.any (fun p => p.1 == k2) = true
    · rw [if_pos hmem, lookupD_map_set_other k k2 v a hk, if_neg hk]
    · rw [if_neg hmem, lookupD_append, if_neg hk]
      cases h2 : lookupD k a <;> simp [lookupD, hk]

theorem dictUpdate_cons (a : List (String × JSON)) (k2 : String) (v2 : JSON)
    (rest : List (String × JSON)) :
    dictUpdate a ((k2, v2) :: rest) = dictUpdate (dictSet a k2 v2) rest := rfl

theorem lookupD_dictUpdate (b : List (String × JSON)) :
    ∀ (a : List (String × JSON)) (k : String),
      lookupD k (dictUpdate a b) =
        (match lookupD k b.reverse with
         | some v => some v
         | none => lookupD k a) := by
  induction b with
  | nil => intro a k; simp [dictUpdate, lookupD]
  | cons hd rest ih =>
      obtain ⟨k2, v2⟩ := hd
      intro a k
      rw [dictUpdate_cons, ih (dictSet a k2 v2) k]
      rw [List.reverse_cons, lookupD_append]
      cases hrev : lookupD k rest.reverse
      · simp only [hrev]
        rw [lookupD_dictSet]
        by_cases hk : k2 = k
        · simp [lookupD, hk]
        · simp [lookupD, hk]
      · simp [hrev]

theorem lookupD_reverse_eq_none (b : List (String × JSON)) (k : String)
    (h : lookupD k b = none) : lookupD k b.reverse = none := by
  rw [lookupD_none_iff_any_false] at h ⊢
  rw [List.any_reverse]
  exact h

theorem lookupD_reverse_nodup (b : List (String × JSON)) (k : String)
    (hnd : (b.map Prod.fst).Nodup) : lookupD k b.reverse = lookupD k b := by
  induction b with
  | nil => rfl
  | cons hd rest ih =>
      obtain ⟨k2, v2⟩ := hd
      simp only [List.map_cons, List.nodup_cons] at hnd
      rw [List.reverse_cons, lookupD_append]
      by_cases hk : k2 = k
      · have hnone : lookupD k rest = none := by
          rw [lookupD_none_iff_any_false]
          cases hcase : rest.any (fun p => p.1 == k)
          · rfl
          · exact absurd ((any_keys_iff rest k).mp hcase) (hk ▸ hnd.1)
        rw [lookupD_reverse_eq_none rest k hnone]
        simp [lookupD, hk]
      · rw [ih hnd.2]
        cases hr : lookupD k rest <;> simp [lookupD, hr, hk]

theorem dict_merge_nondict (a v : JSON) (hv : ∀ w, v ≠ JSON.dict w) :
    dict_merge a v = Except.ok v := by
  cases v with
  | null => rfl
  | bool b => rfl
  | num n => rfl
  | str s => rfl
  | list xs => rfl
  | dict w => exact absurd rfl (hv w)

theorem dict_merge_items_lookup_none (k : String) :
    ∀ (b res res' : List (String × JSON)),
      dict_merge_items res b = Except.ok res' → lookupD k b = none →
      lookupD k res' = lookupD k res := by
  intro b
  induction b with
  | nil =>
      intro res res' h hk
      simp only [dict_merge_items] at h
      cases h
      rfl
  | cons hd rest ih =>
      obtain ⟨k2, v2⟩ := hd
      intro res res' h hk
      have hk2 : ¬ k2 = k := by
        intro he
        simp [lookupD, he] at hk
      have hkrest : lookupD k rest = none := by
        simpa [lookupD, hk2] using hk
      simp only [dict_merge_items] at h
      rcases hm : (match lookupD k2 res with
          | some (JSON.dict ekvs) => dict_merge (JSON.dict ekvs) v2
          | _ => Except.ok v2) with e | newv
      · rw [hm] at h
        exact absurd h (by simp)
      · rw [hm] at h
        rw [ih (dictSet res k2 newv) res' h hkrest, lookupD_dictSet, if_neg hk2]

theorem dict_merge_items_lookup_override (k : String) (v : JSON)
    (hv : ∀ w, v ≠ JSON.dict w) :
    ∀ (b res res' : List (String × JSON)),
      dict_merge_items res b = Except.ok res' →
      (b.map Prod.fst).Nodup → lookupD k b = some v →
      lookupD k res' = some v := by
  intro b
  induction b with
  | nil => intro res res' h hnd hk; simp [lookupD] at hk
  | cons hd rest ih =>
      obtain ⟨k2, v2⟩ := hd
      intro res res' h hnd hk
      simp only [List.map_cons, List.nodup_cons] at hnd
      simp only [dict_merge_items] at h
      by_cases hke : k2 = k
      · have hv2 : v2 = v := by simpa [lookupD, hke] using hk
        subst hv2
        have hm : (match lookupD k2 res with
            | some (JSON.dict ekvs) => dict_merge (JSON.dict ekvs) v2
            | _ => Except.ok v2) = Except.ok v2 := by
          cases hl : lookupD k2 res with
          | none => rfl
          | some w =>
              cases w with
              | dict ekvs => exact dict_merge_nondict (JSON.dict ekvs) v2 hv
              | null => rfl
              | bool b => rfl
              | num n => rfl
              | str s => rfl
              | list xs => rfl
        rw [hm] at h
        have hnone : lookupD k rest = none := by
          rw [lookupD_none_iff_any_false]
          cases hcase : rest.any (fun p => p.1 == k)
          · rfl
          · exact absurd ((any_keys_iff rest k).mp hcase) (hke ▸ hnd.1)
        rw [dict_merge_items_lookup_none k rest (dictSet res k2 v2) res' h hnone,
          lookupD_dictSet, if_pos hke]
      · have hkrest : lookupD k rest = some v := by
          simpa [lookupD, hke] using hk
        rcases hm : (match lookupD k2 res with
            | some (JSON.dict ekvs) => dict_merge (JSON.dict ekvs) v2
            | _ => Except.ok v2) with e | newv
        · rw [hm] at h
          exact absurd h (by simp)
        · rw [hm] at h
          exact ih (dictSet res k2 newv) res' h hnd.2 hkrest

theorem dict_merge_items_lookup_merge (k : String) (ea : List (String × JSON))
    (vb mv : JSON) :
    ∀ (b res res' : List (String × JSON)),
      dict_merge_items res b = Except.ok res' →
      (b.map Prod.fst).Nodup → lookupD k b = some vb →
      lookupD k res = some (JSON.dict ea) →
      dict_merge (JSON.dict ea) vb = Except.ok mv →
      lookupD k res' = some mv := by
  intro b
  induction b with
  | nil => intro res res' h hnd hk hres hmg; simp [lookupD] at hk
  | cons hd rest ih =>
      obtain ⟨k2, v2⟩ := hd
      intro res res' h hnd hk hres hmg
      simp only [List.map_cons, List.nodup_cons] at hnd
      simp only [dict_merge_items] at h
      by_cases hke : k2 = k
      · have hv2 : v2 = vb := by simpa [lookupD, hke] using hk
        subst hv2
        have hres2 : lookupD k2 res = some (JSON.dict ea) := by rw [hke]; exact hres
        have hm2 : (match lookupD k2 res with
            | some (JSON.dict ekvs) => dict_merge (JSON.dict ekvs) v2
            | _ => Except.ok v2) = dict_merge (JSON.dict ea) v2 := by rw [hres2]
        rw [hm2, hmg] at h
        have hnone : lookupD k rest = none := by
          rw [lookupD_none_iff_any_false]
          cases hcase : rest.any (fun p => p.1 == k)
          · rfl
          · exact absurd ((any_keys_iff rest k).mp hcase) (hke ▸ hnd.1)
        rw [dict_merge_items_lookup_none k rest (dictSet res k2 mv) res' h hnone,
          lookupD_dictSet, if_pos hke]
      · have hkrest : lookupD k rest = some vb := by
          simpa [lookupD, hke] using hk
        rcases hm : (match lookupD k2 res with
            | some (JSON.dict ekvs) => dict_merge (JSON.dict ekvs) v2
            | _ => Except.ok v2) with e | newv
        · rw [hm] at h
          exact absurd h (by simp)
        · rw [hm] at h
          refine ih (dictSet res k2 newv) res' h hnd.2 hkrest ?_ hmg
          rw [lookupD_dictSet, if_neg hke]
          exact hres

theorem dict_merge_ok_shape (akvs bkvs : List (String × JSON)) (r : JSON)
    (h : dict_merge (JSON.dict akvs) (JSON.dict bkvs) = Except.ok r) :
    ∃ rk, r = JSON.dict rk ∧ dict_merge_items akvs bkvs = Except.ok rk := by
  simp only [dict_merge] at h
  rcases hm : dict_merge_items akvs bkvs with e | rk
  · rw [hm] at h
    exact absurd h (by simp)
  · rw [hm] at h
    have h2 : JSON.dict rk = r := Except.ok.inj h
    exact ⟨rk, h2.symm, rfl⟩

theorem merge_dict_step_eq (key : String) (S A ret : List (String × JSON))
    (hS : lookupD key S = some (JSON.dict A))
    (hA : type_of (JSON.dict A) = TypeOfRes.pair none) :
    merge_dict_step key (JSON.dict S) ret = Except.ok (dictUpdate ret A) := by
  simp only [merge_dict_step, pyIn, lookupD_any_eq_true hS, pySubscript, hS,
    type_of_fst_is_none, hA, pyDictUpdate]

theorem merge_dict_eq (key : String) (IV DV A B : List (String × JSON))
    (hIV : lookupD key IV = some (JSON.dict A))
    (hDV : lookupD key DV = some (JSON.dict B))
    (hA : type_of (JSON.dict A) = TypeOfRes.pair none)
    (hB : type_of (JSON.dict B) = TypeOfRes.pair none) :
    merge_dict key ⟨JSON.dict IV, JSON.dict DV⟩ =
      Except.ok (JSON.dict (dictUpdate (dictUpdate [] A) B)) := by
  simp only [merge_dict, merge_dict_step_eq key IV A [] hIV hA,
    merge_dict_step_eq key DV B (dictUpdate [] A) hDV hB]

theorem merge_list_step_eq (key : String) (S : List (String × JSON)) (A ret : List JSON)
    (hS : lookupD key S = some (JSON.list A)) :
    merge_list_step key (JSON.dict S) ret = Except.ok (ret ++ A) := by
  simp only [merge_list_step, pyIn, lookupD_any_eq_true hS, pySubscript, hS,
    type_of_fst_is_none, type_of_list_eq, pyExtend, pyIter]

theorem merge_list_eq (key : String) (IV DV : List (String × JSON)) (A B : List JSON)
    (hIV : lookupD key IV = some (JSON.list A))
    (hDV : lookupD key DV = some (JSON.list B)) :
    merge_list key ⟨JSON.dict IV, JSON.dict DV⟩ = Except.ok (JSON.list (A ++ B)) := by
  simp only [merge_list, List.nil_append, merge_list_step_eq key IV A [] hIV,
    merge_list_step_eq key DV B A hDV]

theorem merge_map_eq (fs : FS) (fuel : Nat) (key : String) (st : EngSt)
    (path : List String)
    (hto : type_of (JSON.str key) = TypeOfRes.pair none)
    (hjc : jmes_compile (JSON.str key) = Except.ok path) :
    merge_map fs (fuel + 1) (JSON.str key) st =
      (if (jmes_search path st.instance_vars).falsy = false then
        (Except.ok (jmes_search path st.instance_vars), st)
       else if (jmes_search path st.default_vars).falsy = false then
        (Except.ok (jmes_search path st.default_vars), st)
       else (Except.ok JSON.null, st)) := by
  simp only [merge_map, type_of_fst_is_none, hto, hjc, Bool.not_eq_true']

theorem func_mapping_default_scope (st : EngSt) (name : String) (args : List JSON)
    (h1 : pyIn (JSON.str name) st.default_vars = Except.ok true) :
    func_mapping st (JSON.str name) args = mapping_try st.default_vars (JSON.str name) args := by
  simp only [func_mapping, h1]

theorem mapping_try_error (tmp : JSON) (name : String) (args : List JSON) (x : JSON) (e : Err)
    (h2 : pySubscript tmp (JSON.str name) = Except.ok x)
    (h3 : foldSubscript x args = Except.error e) :
    mapping_try tmp (JSON.str name) args = Except.error Err.mappingError := by
  simp only [mapping_try, h2, h3]

theorem func_mapping_absent_eq (st : EngSt) (name : String) (args : List JSON)
    (h1 : pyIn (JSON.str name) st.default_vars = Except.ok false)
    (h2 : pyIn (JSON.str name) st.instance_vars = Except.ok false) :
    func_mapping st (JSON.str name) args = Except.ok JSON.null := by
  simp only [func_mapping, h1, h2]

theorem tplsub_noop_all (fs : FS) : ∀ fuel : Nat,
    (∀ v st, ¬ bothNull st → resolved v = true → needF v ≤ fuel →
        tplsub fs fuel v st = (Except.ok v, st))
    ∧ (∀ xs st, ¬ bothNull st → resolvedL xs = true → needFL xs ≤ fuel →
        tplsub_list fs fuel xs st = (Except.ok xs, st))
    ∧ (∀ kvs st, ¬ bothNull st → resolvedD kvs = true → needFD kvs ≤ fuel →
        tplsub_items fs fuel kvs st = (Except.ok kvs, st))
    ∧ (∀ kvs st, ¬ bothNull st → resolvedD kvs = true → needFD kvs + 1 ≤ fuel →
        tplsub_dict fs fuel kvs st = (Except.ok (JSON.dict kvs), st))
    ∧ (∀ s st, ¬ bothNull st → noTok s = true → 1 ≤ fuel →
        tplsub_str fs fuel s st = (Except.ok (JSON.str s), st)) := by
  intro fuel
  induction fuel with
  | zero =>
      refine ⟨?_, ?_, ?_, ?_, ?_⟩
      · intro v st _ _ hf; exact absurd hf (by have := needF_pos v; omega)
      · intro xs st _ _ hf; exact absurd hf (by have := needFL_pos xs; omega)
      · intro kvs st _ _ hf; exact absurd hf (by have := needFD_pos kvs; omega)
      · intro kvs st _ _ hf; exact absurd hf (by omega)
      · intro s st _ _ hf; exact absurd hf (by omega)
  | succ f ih =>
      obtain ⟨ihV, ihL, ihI, ihD, ihS⟩ := ih
      refine ⟨?_, ?_, ?_, ?_, ?_⟩
      · intro v st hn hr hf
        have hb := bootstrap_id v st hn
        cases v with
        | null => simp [tplsub, hb]
        | bool b => simp [tplsub, hb]
        | num n => simp [tplsub, hb]
        | str s =>
            have h1 : tplsub_str fs f s st = (Except.ok (JSON.str s), st) :=
              ihS s st hn (by simpa [resolved] using hr)
                (by simp only [needF] at hf; omega)
            simp [tplsub, hb, h1]
        | list xs =>
            have h1 : tplsub_list fs f xs st = (Except.ok xs, st) :=
              ihL xs st hn (by simpa [resolved] using hr)
                (by simp only [needF] at hf; omega)
            simp [tplsub, hb, h1]
        | dict kvs =>
            have h1 : tplsub_dict fs f kvs st = (Except.ok (JSON.dict kvs), st) :=
              ihD kvs st hn (by simpa [resolved] using hr)
                (by simp only [needF] at hf; omega)
            simp [tplsub, hb, h1]
      · intro xs st hn hr hf
        cases xs with
        | nil => simp [tplsub_list]
        | cons x rest =>
            simp only [resolvedL, Bool.and_eq_true] at hr
            simp only [needFL] at hf
            have hm : max (needF x) (needFL rest) ≤ f := by omega
            have hx : tplsub fs f x st = (Except.ok x, st) :=
              ihV x st hn hr.1 (le_trans (Nat.le_max_left _ _) hm)
            have hrest : tplsub_list fs f rest st = (Except.ok rest, st) :=
              ihL rest st hn hr.2 (le_trans (Nat.le_max_right _ _) hm)
            simp [tplsub_list, hx, hrest]
      · intro kvs st hn hr hf
        cases kvs with
        | nil => simp [tplsub_items]
        | cons hd rest =>
            obtain ⟨k, v⟩ := hd
            simp only [resolvedD, Bool.and_eq_true] at hr
            simp only [needFD] at hf
            have hm : max (needF v) (needFD rest) ≤ f := by omega
            have hx : tplsub fs f v st = (Except.ok v, st) :=
              ihV v st hn hr.1.2 (le_trans (Nat.le_max_left _ _) hm)
            have hrest : tplsub_items fs f rest st = (Except.ok rest, st) :=
              ihI rest st hn hr.2 (le_trans (Nat.le_max_right _ _) hm)
            simp [tplsub_items, hx, hrest]
      · intro kvs st hn hr hf
        have ht := type_of_dict_res kvs hr
        have hi : tplsub_items fs f kvs st = (Except.ok kvs, st) :=
          ihI kvs st hn hr (by omega)
        simp [tplsub_dict, ht, hi]
      · intro s st hn htk hf
        have ht := type_of_str_noTok s
          (by simpa [noTok, Option.isNone_iff_eq_none] using htk)
        simp [tplsub_str, ht]

theorem tplsub_frame_all (fs : FS) : ∀ fuel : Nat,
    (∀ v st, ¬ bothNull st → (tplsub fs fuel v st).2 = st)
    ∧ (∀ kvs st, ¬ bothNull st → (tplsub_dict fs fuel kvs st).2 = st)
    ∧ (∀ kvs st, ¬ bothNull st → (tplsub_items fs fuel kvs st).2 = st)
    ∧ (∀ xs st, ¬ bothNull st → (tplsub_list fs fuel xs st).2 = st)
    ∧ (∀ s st, ¬ bothNull st → (tplsub_str fs fuel s st).2 = st)
    ∧ (∀ v st, ¬ bothNull st → (do_sub fs fuel v st).2 = st)
    ∧ (∀ key st, ¬ bothNull st → (merge_map fs fuel key st).2 = st)
    ∧ (∀ s v st, ¬ bothNull st → (update_str fs fuel s v st).2 = st)
    ∧ (∀ n v st, ¬ bothNull st → (tplsub_func fs fuel n v st).2 = st) := by
  intro fuel
  induction fuel with
  | zero =>
      refine ⟨?_, ?_, ?_, ?_, ?_, ?_, ?_, ?_, ?_⟩ <;> intros <;> rfl
  | succ f ih =>
      obtain ⟨ihV, ihD, ihI, ihL, ihS, ihDo, ihM, ihU, ihF⟩ := ih
      refine ⟨?_, ?_, ?_, ?_, ?_, ?_, ?_, ?_, ?_⟩
      · -- tplsub
        intro v st hn
        have hb := bootstrap_id v st hn
        cases v with
        | null => simp [tplsub, hb]
        | bool b => simp [tplsub, hb]
        | num n => simp [tplsub, hb]
        | str s => simpa [tplsub, hb] using ihS s st hn
        | dict kvs => simpa [tplsub, hb] using ihD kvs st hn
        | list xs =>
            have hl := ihL xs st hn
            rcases h : tplsub_list fs f xs st with ⟨r, st2⟩
            rw [h] at hl
            cases r with
            | ok ys => simp [tplsub, hb, h, hl]
            | error e => simp [tplsub, hb, h, hl]
      · -- tplsub_dict
        intro kvs st hn
        rcases ht : type_of (JSON.dict kvs) with o | _
        · rcases o with _ | ⟨k, fname⟩
          · have hi := ihI kvs st hn
            rcases h : tplsub_items fs f kvs st with ⟨r, st2⟩
            rw [h] at hi
            cases r with
            | ok rs => simp [tplsub_dict, ht, h, hi]
            | error e => simp [tplsub_dict, ht, h, hi]
          · cases k with
            | func =>
                cases kvs with
                | nil => simp [tplsub_dict, ht]
                | cons hd rest =>
                    obtain ⟨k0, v0⟩ := hd
                    simpa [tplsub_dict, ht] using ihF fname v0 st hn
            | str =>
                have hi := ihI kvs st hn
                rcases h : tplsub_items fs f kvs st with ⟨r, st2⟩
                rw [h] at hi
                cases r with
                | ok rs => simp [tplsub_dict, ht, h, hi]
                | error e => simp [tplsub_dict, ht, h, hi]
            | list =>
                have hi := ihI kvs st hn
                rcases h : tplsub_items fs f kvs st with ⟨r, st2⟩
                rw [h] at hi
                cases r with
                | ok rs => simp [tplsub_dict, ht, h, hi]
                | error e => simp [tplsub_dict, ht, h, hi]
            | dict =>
                have hi := ihI kvs st hn
                rcases h : tplsub_items fs f kvs st with ⟨r, st2⟩
                rw [h] at hi
                cases r with
                | ok rs => simp [tplsub_dict, ht, h, hi]
                | error e => simp [tplsub_dict, ht, h, hi]
            | map =>
                have hi := ihI kvs st hn
                rcases h : tplsub_items fs f kvs st with ⟨r, st2⟩
                rw [h] at hi
                cases r with
                | ok rs => simp [tplsub_dict, ht, h, hi]
                | error e => simp [tplsub_dict, ht, h, hi]
        · simp [tplsub_dict, ht]
      · -- tplsub_items
        intro kvs st hn
        cases kvs with
        | nil => rfl
        | cons hd rest =>
            obtain ⟨k, v⟩ := hd
            have hv := ihV v st hn
            rcases h : tplsub fs f v st with ⟨r, st2⟩
            rw [h] at hv
            cases r with
            | error e => simp [tplsub_items, h, hv]
            | ok v2 =>
                have hv2 : st2 = st := hv
                rw [hv2] at h
                have hr := ihI rest st hn
                rcases h2 : tplsub_items fs f rest st with ⟨r2, st3⟩
                rw [h2] at hr
                cases r2 with
                | ok rs => simp [tplsub_items, h, h2, hr]
                | error e => simp [tplsub_items, h, h2, hr]
      · -- tplsub_list
        intro xs st hn
        cases xs with
        | nil => rfl
        | cons x rest =>
            have hv := ihV x st hn
            rcases h : tplsub fs f x st with ⟨r, st2⟩
            rw [h] at hv
            cases r with
            | error e => simp [tplsub_list, h, hv]
            | ok y =>
                have hv2 : st2 = st := hv
                rw [hv2] at h
                have hr := ihL rest st hn
                rcases h2 : tplsub_list fs f rest st with ⟨r2, st3⟩
                rw [h2] at hr
                cases r2 with
                | ok ys => simp [tplsub_list, h, h2, hr]
                | error e => simp [tplsub_list, h, h2, hr]
      · -- tplsub_str
        intro s st hn
        rcases ht : type_of (JSON.str s) with o | _
        · rcases o with _ | p
          · simp [tplsub_str, ht]
          · have hd := ihDo (JSON.str s) st hn
            rcases h : do_sub fs f (JSON.str s) st with ⟨r, st2⟩
            rw [h] at hd
            cases r with
            | error e => simp [tplsub_str, ht, h, hd]
            | ok new =>
                have hd2 : st2 = st := hd
                rw [hd2] at h
                simpa [tplsub_str, ht, h] using ihU s new st hn
        · simp [tplsub_str, ht]
      · -- do_sub
        intro v st hn
        rcases ht : type_of v with o | _
        · rcases o with _ | ⟨k, key⟩
          · simp [do_sub, ht]
          · cases k with
            | str => simp [do_sub, ht]
            | list => simp [do_sub, ht]
            | dict => simp [do_sub, ht]
            | func => simp [do_sub, ht]
            | map => simpa [do_sub, ht] using ihM (JSON.str key) st hn
        · simp [do_sub, ht]
      · -- merge_map
        intro key st hn
        rcases ht : type_of_fst_is_none key with e | b
        · simp [merge_map, ht]
        · cases b with
          | true =>
              rcases hj : jmes_compile key with e | path
              · simp [merge_map, ht, hj]
              · simp only [merge_map, ht, hj]
                split
                · rfl
                · split
                  · rfl
                  · rfl
          | false =>
              have hv := ihV key st hn
              rcases h : tplsub fs f key st with ⟨r, st2⟩
              rw [h] at hv
              cases r with
              | error e => simp [merge_map, ht, h, hv]
              | ok key2 =>
                  have hv2 : st2 = st := hv
                  rw [hv2] at h
                  simpa [merge_map, ht, h] using ihM key2 st hn
      · -- update_str
        intro s v st hn
        cases v with
        | str ns =>
            rcases hf2 : format_str s ns with _ | s2
            · simp [update_str, hf2]
            · simpa [update_str, hf2] using ihS s2 st hn
        | null =>
            rcases ht : type_of_fst_is_none JSON.null with e | b
            · simp [update_str, ht]
            · cases b with
              | true => simp [update_str, ht]
              | false =>
                  have hv := ihV JSON.null st hn
                  rcases h : tplsub fs f JSON.null st with ⟨r, st2⟩
                  rw [h] at hv
                  cases r with
                  | error e => simp [update_str, ht, h, hv]
                  | ok ns2 =>
                      have hv2 : st2 = st := hv
                      rw [hv2] at h
                      simpa [update_str, ht, h] using ihU s ns2 st hn
        | bool b0 =>
            rcases ht : type_of_fst_is_none (JSON.bool b0) with e | b
            · simp [update_str, ht]
            · cases b with
              | true => simp [update_str, ht]
              | false =>
                  have hv := ihV (JSON.bool b0) st hn
                  rcases h : tplsub fs f (JSON.bool b0) st with ⟨r, st2⟩
                  rw [h] at hv
                  cases r with
                  | error e => simp [update_str, ht, h, hv]
                  | ok ns2 =>
                      have hv2 : st2 = st := hv
                      rw [hv2] at h
                      simpa [update_str, ht, h] using ihU s ns2 st hn
        | num n0 =>
            rcases ht : type_of_fst_is_none (JSON.num n0) with e | b
            · simp [update_str, ht]
            · cases b with
              | true => simp [update_str, ht]
              | false =>
                  have hv := ihV (JSON.num n0) st hn
                  rcases h : tplsub fs f (JSON.num n0) st with ⟨r, st2⟩
                  rw [h] at hv
                  cases r with
                  | error e => simp [update_str, ht, h, hv]
                  | ok ns2 =>
                      have hv2 : st2 = st := hv
                      rw [hv2] at h
                      simpa [update_str, ht, h] using ihU s ns2 st hn
        | list xs =>
            rcases ht : type_of_fst_is_none (JSON.list xs) with e | b
            · simp [update_str, ht]
            · cases b with
              | true => simp [update_str, ht]
              | false =>
                  have hv := ihV (JSON.list xs) st hn
                  rcases h : tplsub fs f (JSON.list xs) st with ⟨r, st2⟩
                  rw [h] at hv
                  cases r with
                  | error e => simp [update_str, ht, h, hv]
                  | ok ns2 =>
                      have hv2 : st2 = st := hv
                      rw [hv2] at h
                      simpa [update_str, ht, h] using ihU s ns2 st hn
        | dict kvs =>
            rcases ht : type_of_fst_is_none (JSON.dict kvs) with e | b
            · simp [update_str, ht]
            · cases b with
              | true => simp [update_str, ht]
              | false =>
                  have hv := ihV (JSON.dict kvs) st hn
                  rcases h : tplsub fs f (JSON.dict kvs) st with ⟨r, st2⟩
                  rw [h] at hv
                  cases r with
                  | error e => simp [update_str, ht, h, hv]
                  | ok ns2 =>
                      have hv2 : st2 = st := hv
                      rw [hv2] at h
                      simpa [update_str, ht, h] using ihU s ns2 st hn
      · -- tplsub_func
        intro n v st hn
        by_cases hbn : n ∈ builtin_names
        · have hv := ihV v st hn
          rcases h : tplsub fs f v st with ⟨r, st2⟩
          rw [h] at hv
          cases r with
          | error e => simp [tplsub_func, hbn, h, hv]
          | ok params =>
              have hv2 : st2 = st := hv
              rw [hv2] at h
              rcases hc : call_builtin fs st n params with e | r2
              · simp [tplsub_func, hbn, h, hc]
              · simp [tplsub_func, hbn, h, hc]
        · simp [tplsub_func, hbn]

theorem getD_last (xs : List JSON) (h : xs ≠ []) :
    xs.getD (xs.length - 1) JSON.null = xs.getLast h := by
  induction xs with
  | nil => exact absurd rfl h
  | cons x rest ih =>
      cases rest with
      | nil => rfl
      | cons y t =>
          have hlen : (x :: y :: t).length - 1 = ((y :: t).length - 1) + 1 := by
            simp [List.length_cons]
          rw [hlen, List.getD_cons_succ, ih (by simp)]
          exact (List.getLast_cons (by simp)).symm

theorem pyIndex_neg_one (xs : List JSON) (h : xs ≠ []) :
    pyIndex xs (-1) = Except.ok (xs.getLast h) := by
  have hlen : 0 < xs.length := List.length_pos.mpr h
  simp only [pyIndex]
  rw [if_pos (by omega : (-1 : Int) < 0)]
  rw [if_pos ⟨by omega, by omega⟩]
  rw [show ((-1 : Int) + (xs.length : Int)).toNat = xs.length - 1 from by omega]
  rw [getD_last xs h]

theorem pyIndex_out_of_range (xs : List JSON) (i : Int)
    (h : (xs.length : Int) < i) : pyIndex xs (i - 1) = Except.error Err.indexError := by
  simp only [pyIndex]
  rw [if_neg (by omega : ¬ (i - 1 : Int) < 0)]
  rw [if_neg (by omega : ¬ ((0 : Int) ≤ i - 1 ∧ (i - 1 : Int) < (xs.length : Int)))]

/-!
The claims.
-/

/-- C4 (amended): `Select` uses a 1-based index, given as an int or a
numeric string — `Select(1, ["a","b","c"]) = "a"` — and for an index
greater than the list length it raises Python's `IndexError` (an indexing
error), not the invalid-parameters `IcsException`. -/
theorem func_select_one_based (i : Int) (s : String) (xs : List JSON)
    (hs : py_int_of_string s = some i) (hgt : (xs.length : Int) < i) :
    func_select (JSON.num 1) (JSON.list [JSON.str "a", JSON.str "b", JSON.str "c"]) =
      Except.ok (JSON.str "a")
    ∧ func_select (JSON.str "1") (JSON.list [JSON.str "a", JSON.str "b", JSON.str "c"]) =
      Except.ok (JSON.str "a")
    ∧ func_select (JSON.num i) (JSON.list xs) = Except.error Err.indexError
    ∧ func_select (JSON.str s) (JSON.list xs) = Except.error Err.indexError := by
  refine ⟨rfl, rfl, ?_, ?_⟩
  · exact pyIndex_out_of_range xs i hgt
  · simp only [func_select, hs]
    exact pyIndex_out_of_range xs i hgt

theorem func_select_one_based_witness :
    py_int_of_string "4" = some 4
    ∧ ((2 : Nat) : Int) < 4
    ∧ func_select (JSON.num 4) (JSON.list [JSON.str "a", JSON.str "b"]) =
        Except.error Err.indexError := by
  refine ⟨by decide, by decide, ?_⟩
  exact (func_select_one_based 4 "4" [JSON.str "a", JSON.str "b"] (by decide) (by decide)).2.2.1

/-- C4 (counterexample): an out-of-range `Select` index raises `IndexError`,
which is not the invalid-parameters `IcsException` the claim names. -/
theorem func_select_out_of_range_not_invalid_params :
    func_select (JSON.num 4) (JSON.list [JSON.str "a", JSON.str "b", JSON.str "c"]) =
      Except.error Err.indexError
    ∧ Err.indexError ≠ Err.invalidParams := ⟨rfl, by decide⟩

/-- C10: `Select(0, l)` (int or string `"0"`) returns the last element of a
non-empty list: the 1-based adjustment `index - 1` yields the Python index
`-1`, which wraps to the end instead of raising. -/
theorem func_select_zero_wraps_to_last (xs : List JSON) (h : xs ≠ []) :
    func_select (JSON.num 0) (JSON.list xs) = Except.ok (xs.getLast h)
    ∧ func_select (JSON.str "0") (JSON.list xs) = Except.ok (xs.getLast h) := by
  have hp := pyIndex_neg_one xs h
  constructor
  · show pyIndex xs (0 - 1) = _
    rw [show ((0 : Int) - 1) = -1 from by norm_num]
    exact hp
  · simp only [func_select, show py_int_of_string "0" = some 0 from rfl]
    rw [show ((0 : Int) - 1) = -1 from by norm_num]
    exact hp

theorem func_select_zero_wraps_to_last_witness :
    func_select (JSON.num 0) (JSON.list [JSON.str "a", JSON.str "b", JSON.str "c"]) =
      Except.ok (JSON.str "c") :=
  (func_select_zero_wraps_to_last [JSON.str "a", JSON.str "b", JSON.str "c"]
    (by simp)).1

/-- C5 (amended): the `Mapping` builtin performs sequential keyed descent —
`Mapping("Regions", "us-west-2", "ami")` against a scope holding
`Regions.us-west-2.ami = "ami-123"` returns `"ami-123"` — and a failing
descent (e.g. a missing intermediate key) raises the mapping-resolution
`IcsException`; but a map name absent from both scopes returns `None`
without raising. -/
theorem func_mapping_descent_behavior :
    func_mapping stMapx (JSON.str "Regions") [JSON.str "us-west-2", JSON.str "ami"] =
      Except.ok (JSON.str "ami-123")
    ∧ (∀ st name args x e, pyIn (JSON.str name) st.default_vars = Except.ok true →
        pySubscript st.default_vars (JSON.str name) = Except.ok x →
        foldSubscript x args = Except.error e →
        func_mapping st (JSON.str name) args = Except.error Err.mappingError)
    ∧ (∀ st name args, pyIn (JSON.str name) st.default_vars = Except.ok false →
        pyIn (JSON.str name) st.instance_vars = Except.ok false →
        func_mapping st (JSON.str name) args = Except.ok JSON.null) := by
  refine ⟨rfl, ?_, ?_⟩
  · intro st name args x e h1 h2 h3
    rw [func_mapping_default_scope st name args h1,
      mapping_try_error st.default_vars name args x e h2 h3]
  · intro st name args h1 h2
    exact func_mapping_absent_eq st name args h1 h2

theorem func_mapping_descent_behavior_witness :
    func_mapping stMapx (JSON.str "Regions") [JSON.str "nope"] =
      Except.error Err.mappingError
    ∧ func_mapping stEmptyx (JSON.str "M") [] = Except.ok JSON.null := by
  constructor
  · exact func_mapping_descent_behavior.2.1 stMapx "Regions" [JSON.str "nope"]
      (JSON.dict [("us-west-2", JSON.dict [("ami", JSON.str "ami-123")])])
      Err.keyError rfl rfl rfl
  · exact func_mapping_descent_behavior.2.2 stEmptyx "M" [] rfl rfl

/-- C5 (counterexample): a map name absent from both scopes makes
`func_mapping` return `None` (JSON null) instead of signalling the
mapping-resolution error the claim describes. -/
theorem func_mapping_absent_name_no_error :
    func_mapping stEmptyx (JSON.str "M") [] = Except.ok JSON.null
    ∧ (Except.ok JSON.null : Except Err JSON) ≠ Except.error Err.mappingError :=
  ⟨rfl, by simp⟩

/-- C2 (amended): resolving a mapping-reference token `$<Map.key...>` found
inside a string consults the *instance* scope first — the jmespath search
result from the instance scope is used whenever it is truthy — and falls
back to the default scope (and then to `None`) only when the earlier result
is falsy.  The default-scope-first precedence belongs to the `Mapping`
builtin (`func_mapping`), not to mapping-reference tokens. -/
theorem merge_map_instance_scope_first (fs : FS) (fuel : Nat) (key : String)
    (path : List String) (st : EngSt)
    (hto : type_of (JSON.str key) = TypeOfRes.pair none)
    (hjc : jmes_compile (JSON.str key) = Except.ok path) :
    ((jmes_search path st.instance_vars).falsy = false →
      merge_map fs (fuel + 1) (JSON.str key) st =
        (Except.ok (jmes_search path st.instance_vars), st))
    ∧ ((jmes_search path st.instance_vars).falsy = true →
        (jmes_search path st.default_vars).falsy = false →
        merge_map fs (fuel + 1) (JSON.str key) st =
          (Except.ok (jmes_search path st.default_vars), st))
    ∧ ((jmes_search path st.instance_vars).falsy = true →
        (jmes_search path st.default_vars).falsy = true →
        merge_map fs (fuel + 1) (JSON.str key) st = (Except.ok JSON.null, st)) := by
  refine ⟨?_, ?_, ?_⟩
  · intro h1
    rw [merge_map_eq fs fuel key st path hto hjc, if_pos h1]
  · intro h1 h2
    rw [merge_map_eq fs fuel key st path hto hjc, if_neg (by simp [h1]), if_pos h2]
  · intro h1 h2
    rw [merge_map_eq fs fuel key st path hto hjc, if_neg (by simp [h1]),
      if_neg (by simp [h2])]

theorem merge_map_instance_scope_first_witness :
    merge_map [] 5 (JSON.str "M.k") stC2x = (Except.ok (JSON.str "I"), stC2x) :=
  (merge_map_instance_scope_first [] 4 "M.k" ["M", "k"] stC2x rfl rfl).1 rfl

/-- C2 (counterexample): with `M` present (and truthy) in *both* scopes, the
mapping-reference token `$<M.k>` resolves to the instance-scope value "I",
not the default-scope value "D" that default-scope-first precedence would
give. -/
theorem merge_map_not_default_first :
    merge_map [] 5 (JSON.str "M.k") stC2x = (Except.ok (JSON.str "I"), stC2x)
    ∧ jmes_search ["M", "k"] stC2x.default_vars = JSON.str "D"
    ∧ tplsub [] 20 (JSON.str "$<M.k>") stC2x = (Except.ok (JSON.str "I"), stC2x)
    ∧ JSON.str "I" ≠ JSON.str "D" :=
  ⟨rfl, rfl, rfl, by simp⟩

/-- C1 (amended): for a key dict-valued in both scopes (with both values
classified as already resolved), resolving `${key}` yields the fresh dict
updated first with the instance value and then with the default value — so
on conflicting entries the *default*-scope value overrides the
instance-scope value, and non-conflicting instance entries survive. -/
theorem merge_dict_default_overrides (key : String)
    (IV DV A B : List (String × JSON))
    (hIV : lookupD key IV = some (JSON.dict A))
    (hDV : lookupD key DV = some (JSON.dict B))
    (hA : type_of (JSON.dict A) = TypeOfRes.pair none)
    (hB : type_of (JSON.dict B) = TypeOfRes.pair none)
    (hnd : (B.map Prod.fst).Nodup) :
    merge_dict key ⟨JSON.dict IV, JSON.dict DV⟩ =
      Except.ok (JSON.dict (dictUpdate (dictUpdate [] A) B))
    ∧ (∀ k2 v, lookupD k2 B = some v →
        lookupD k2 (dictUpdate (dictUpdate [] A) B) = some v)
    ∧ (∀ k2, lookupD k2 B = none →
        lookupD k2 (dictUpdate (dictUpdate [] A) B) = lookupD k2 (dictUpdate [] A)) := by
  refine ⟨merge_dict_eq key IV DV A B hIV hDV hA hB, ?_, ?_⟩
  · intro k2 v hk
    rw [lookupD_dictUpdate B (dictUpdate [] A) k2, lookupD_reverse_nodup B k2 hnd, hk]
  · intro k2 hk
    rw [lookupD_dictUpdate B (dictUpdate [] A) k2, lookupD_reverse_eq_none B k2 hk]

theorem merge_dict_default_overrides_witness :
    merge_dict "k" stC1x =
      Except.ok (JSON.dict (dictUpdate
        (dictUpdate [] [("a", JSON.str "I"), ("i", JSON.num 1)])
        [("a", JSON.str "D"), ("d", JSON.num 2)]))
    ∧ lookupD "a" (dictUpdate
        (dictUpdate [] [("a", JSON.str "I"), ("i", JSON.num 1)])
        [("a", JSON.str "D"), ("d", JSON.num 2)]) = some (JSON.str "D") := by
  have h := merge_dict_default_overrides "k"
    [("k", JSON.dict [("a", JSON.str "I"), ("i", JSON.num 1)])]
    [("k", JSON.dict [("a", JSON.str "D"), ("d", JSON.num 2)])]
    [("a", JSON.str "I"), ("i", JSON.num 1)]
    [("a", JSON.str "D"), ("d", JSON.num 2)]
    rfl rfl rfl rfl (by simp)
  exact ⟨h.1, h.2.1 "a" (JSON.str "D") rfl⟩

/-- C1 (counterexample): with `k` dict-valued in both scopes and a
conflicting entry `"a"`, the code resolves `${k}` with the default-scope
value `"D"` at `"a"`, while the claim's instance-over-default update
semantics (`merge_dict_claimed`) would give `"I"`. -/
theorem merge_dict_not_instance_priority :
    merge_dict "k" stC1x =
      Except.ok (JSON.dict [("a", JSON.str "D"), ("i", JSON.num 1), ("d", JSON.num 2)])
    ∧ merge_dict_claimed "k" stC1x =
      some (JSON.dict [("a", JSON.str "I"), ("d", JSON.num 2), ("i", JSON.num 1)])
    ∧ tplsub [] 20 (JSON.str "${k}") stC1x =
      (Except.ok (JSON.dict [("a", JSON.str "D"), ("i", JSON.num 1), ("d", JSON.num 2)]), stC1x)
    ∧ JSON.str "D" ≠ JSON.str "I" :=
  ⟨rfl, rfl, rfl, by simp⟩

/-- C6: for a key list-valued in both scopes, resolving the list-variable
token yields the concatenation instance elements first, then default
elements, preserving intra-list order (both at the `merge_list` level and
through `do_sub` on a string classified as a list token). -/
theorem list_token_concat (fs : FS) (fuel : Nat) (s key : String)
    (IV DV : List (String × JSON)) (A B : List JSON)
    (htok : type_of (JSON.str s) = TypeOfRes.pair (some (TKind.list, key)))
    (hIV : lookupD key IV = some (JSON.list A))
    (hDV : lookupD key DV = some (JSON.list B)) :
    merge_list key ⟨JSON.dict IV, JSON.dict DV⟩ = Except.ok (JSON.list (A ++ B))
    ∧ do_sub fs (fuel + 1) (JSON.str s) ⟨JSON.dict IV, JSON.dict DV⟩ =
        (Except.ok (JSON.list (A ++ B)), ⟨JSON.dict IV, JSON.dict DV⟩) := by
  have h1 := merge_list_eq key IV DV A B hIV hDV
  refine ⟨h1, ?_⟩
  simp only [do_sub, htok, h1]

theorem list_token_concat_witness :
    do_sub [] 5 (JSON.str "$[Ids]")
      ⟨JSON.dict [("Ids", JSON.list [JSON.str "i1", JSON.str "i2"])],
       JSON.dict [("Ids", JSON.list [JSON.str "d1"])]⟩ =
      (Except.ok (JSON.list [JSON.str "i1", JSON.str "i2", JSON.str "d1"]),
       ⟨JSON.dict [("Ids", JSON.list [JSON.str "i1", JSON.str "i2"])],
        JSON.dict [("Ids", JSON.list [JSON.str "d1"])]⟩) :=
  (list_token_concat [] 4 "$[Ids]" "Ids"
    [("Ids", JSON.list [JSON.str "i1", JSON.str "i2"])]
    [("Ids", JSON.list [JSON.str "d1"])]
    [JSON.str "i1", JSON.str "i2"] [JSON.str "d1"] rfl rfl rfl).2

/-- C3 (amended): expansion is idempotent once the first expansion's output
is fully resolved (token-free): re-expanding such an output (with enough
fuel for its structural descent, and with caller-supplied scopes) returns
it unchanged.  The counterexample `tplsub_idempotence_fails` shows that
resolvability of all references alone does not suffice, because a list
pulled out of a scope by `$[key]` is returned without expanding the tokens
inside it. -/
theorem tplsub_noop_on_resolved_output (fs : FS) (doc w : JSON) (st : EngSt)
    (fuel fuel2 : Nat) (hn : ¬ bothNull st)
    (h1 : tplsub fs fuel doc st = (Except.ok w, st))
    (hw : resolved w = true) (hf : needF w ≤ fuel2) :
    tplsub fs fuel2 w st = (Except.ok w, st) :=
  (tplsub_noop_all fs fuel2).1 w st hn hw hf

theorem tplsub_noop_on_resolved_output_witness :
    tplsub [] 10 (JSON.str "v") stC3x = (Except.ok (JSON.str "v"), stC3x) :=
  tplsub_noop_on_resolved_output [] (JSON.str "$(x)") (JSON.str "v") stC3x 10 10
    (by simp [bothNull, stC3x]) rfl (by decide) (by decide)

/-- C3 (counterexample): with `L = ["$(x)"]` and `x = "v"` in the instance
scope every reference is resolvable, yet expanding `"$[L]"` yields
`["$(x)"]` (the token inside the fetched list is left alone), and expanding
that output again yields `["v"]` — so expansion is not idempotent. -/
theorem tplsub_idempotence_fails :
    tplsub [] 20 (JSON.str "$[L]") stC3x =
      (Except.ok (JSON.list [JSON.str "$(x)"]), stC3x)
    ∧ tplsub [] 20 (JSON.list [JSON.str "$(x)"]) stC3x =
      (Except.ok (JSON.list [JSON.str "v"]), stC3x)
    ∧ tplsub [] 20 (JSON.str "$(x)") stC3x = (Except.ok (JSON.str "v"), stC3x)
    ∧ JSON.list [JSON.str "$(x)"] ≠ JSON.list [JSON.str "v"] :=
  ⟨rfl, rfl, rfl, by simp⟩

/-- C7 (amended): `Include` reads each named file and JSON-decodes its raw
contents — without stripping `#` comments, which only the `tplsubs` entry
point's `fp_to_json` does — deep-merging the decoded dicts in listed order
via `dict_merge`, where an entry of a later file overrides an earlier entry
under the same key (non-dict values replace, and two dicts under the same
key merge recursively). -/
theorem func_include_decode_merge (fs : FS) (p1 p2 c1 c2 : String)
    (j1 j2 m1 m2 : JSON)
    (h1 : lookupFS fs p1 = some c1) (h2 : lookupFS fs p2 = some c2)
    (hj1 : json_loads c1 = some j1) (hj2 : json_loads c2 = some j2)
    (hm1 : dict_merge (JSON.dict []) j1 = Except.ok m1)
    (hm2 : dict_merge m1 j2 = Except.ok m2) :
    func_include fs [JSON.str p1, JSON.str p2] = Except.ok m2
    ∧ (∀ akvs bkvs rk k v,
        dict_merge (JSON.dict akvs) (JSON.dict bkvs) = Except.ok (JSON.dict rk) →
        (bkvs.map Prod.fst).Nodup → lookupD k bkvs = some v →
        (∀ w, v ≠ JSON.dict w) → lookupD k rk = some v)
    ∧ (∀ akvs bkvs rk k vb ea mv,
        dict_merge (JSON.dict akvs) (JSON.dict bkvs) = Except.ok (JSON.dict rk) →
        (bkvs.map Prod.fst).Nodup → lookupD k bkvs = some vb →
        lookupD k akvs = some (JSON.dict ea) →
        dict_merge (JSON.dict ea) vb = Except.ok mv →
        lookupD k rk = some mv) := by
  refine ⟨?_, ?_, ?_⟩
  · simp only [func_include, func_include_go, h1, hj1, hm1, h2, hj2, hm2]
  · intro akvs bkvs rk k v hmg hnd hkv hvnd
    obtain ⟨rk2, heq, hitems⟩ := dict_merge_ok_shape akvs bkvs (JSON.dict rk) hmg
    have hrk : rk = rk2 := by
      cases heq
      rfl
    rw [hrk]
    exact dict_merge_items_lookup_override k v hvnd bkvs akvs rk2 hitems hnd hkv
  · intro akvs bkvs rk k vb ea mv hmg hnd hkv hka hmv
    obtain ⟨rk2, heq, hitems⟩ := dict_merge_ok_shape akvs bkvs (JSON.dict rk) hmg
    have hrk : rk = rk2 := by
      cases heq
      rfl
    rw [hrk]
    exact dict_merge_items_lookup_merge k ea vb mv bkvs akvs rk2 hitems hnd hkv hka hmv

theorem func_include_decode_merge_witness :
    func_include fsC7w [JSON.str "a.json", JSON.str "b.json"] =
      Except.ok (JSON.dict
        [("x", JSON.dict [("p", JSON.num 1), ("q", JSON.num 2)]), ("y", JSON.num 3)]) :=
  (func_include_decode_merge fsC7w "a.json" "b.json"
    "\x7b\"x\": \x7b\"p\": 1\x7d\x7d" "\x7b\"x\": \x7b\"q\": 2\x7d, \"y\": 3\x7d"
    (JSON.dict [("x", JSON.dict [("p", JSON.num 1)])])
    (JSON.dict [("x", JSON.dict [("q", JSON.num 2)]), ("y", JSON.num 3)])
    (JSON.dict [("x", JSON.dict [("p", JSON.num 1)])])
    (JSON.dict [("x", JSON.dict [("p", JSON.num 1), ("q", JSON.num 2)]), ("y", JSON.num 3)])
    rfl rfl rfl rfl rfl rfl).1

/-- C7 (counterexample): `func_include` does not strip full-line `#`
comments before decoding: on a file starting with a comment line it raises
the JSON decoder's `ValueError`, although the stripped text (what
`fp_to_json` would decode) parses fine — so the claimed
strip-then-decode behaviour does not hold for `Include`. -/
theorem func_include_comment_file_fails :
    func_include fsC7x [JSON.str "inc.json"] = Except.error Err.valueError
    ∧ json_loads incContents = none
    ∧ fp_to_json incContents = some (JSON.dict [("a", JSON.num 1)])
    ∧ (Except.error Err.valueError : Except Err JSON) ≠
        Except.ok (JSON.dict [("a", JSON.num 1)]) :=
  ⟨rfl, rfl, rfl, by simp⟩

/-- C8: expansion never changes the scope state: whenever the caller
supplies at least one scope (so the self-reference bootstrap, which rebinds
the instance scope to the document, does not fire), the scope pair threaded
through `tplsub` — including every variable lookup and merge it performs —
comes back exactly as it went in.  (In the embedding every Python operation
on the scope objects is a read; the only write site is the bootstrap
rebinding, excluded by the hypothesis.) -/
theorem tplsub_preserves_scopes (fs : FS) (fuel : Nat) (v : JSON) (st : EngSt)
    (hn : ¬ bothNull st) : (tplsub fs fuel v st).2 = st :=
  (tplsub_frame_all fs fuel).1 v st hn

theorem tplsub_preserves_scopes_witness :
    (tplsub [] 10 (JSON.str "$[L]") stC3x).2 = stC3x :=
  tplsub_preserves_scopes [] 10 (JSON.str "$[L]") stC3x (by simp [bothNull, stC3x])

/-- C9: `type_of` is not total on token-bearing inputs: a string whose first
token is `$(...)` with a dot inside, a string containing `$<...>` without a
dot, and a single-entry dict whose `$[...]`/`${...}` key has a value that is
not literally a list/dict all fall through every branch and return a bare
`None`; expansion of such inputs then fails with the tuple-unpacking /
subscription `TypeError`, not one of the engine's own `IcsException`
kinds. -/
theorem type_of_partiality :
    type_of (JSON.str "$(a.b)") = TypeOfRes.bareNone
    ∧ type_of (JSON.str "xx$<name>yy") = TypeOfRes.bareNone
    ∧ type_of (JSON.dict [("$[k]", JSON.str "x")]) = TypeOfRes.bareNone
    ∧ type_of (JSON.dict [("${k}", JSON.num 1)]) = TypeOfRes.bareNone
    ∧ tplsub [] 10 (JSON.str "$(a.b)") stEmptyx = (Except.error Err.typeError, stEmptyx)
    ∧ tplsub [] 10 (JSON.dict [("$[k]", JSON.str "x")]) stEmptyx =
        (Except.error Err.typeError, stEmptyx)
    ∧ Err.typeError ≠ Err.invalidParams
    ∧ Err.typeError ≠ Err.invalidFunction
    ∧ Err.typeError ≠ Err.unknownFunction
    ∧ Err.typeError ≠ Err.mappingError
    ∧ Err.typeError ≠ Err.unexpectedType :=
  ⟨rfl, rfl, rfl, rfl, rfl, rfl, by decide, by decide, by decide, by decide, by decide⟩
